import Mathlib

/-!
Verification of the smartcafe-admin-client state-orchestration layer.

This file gives a shallow embedding of:
* `FormErrorMapperService` (libs/shared/utils/src/lib/form-error-mapper.service.ts,
  reproduced in .github/project-setup-prompt.md): `applyToForm`, `toFormFieldName`,
  `groupErrorsByField`, `getControl`, `clearFormErrors`, over a functional model of
  the Angular `FormGroup`/`FormArray`/`FormControl` tree;
* the NgRx-signals stores `CafeStore` and `MenuStore` (cafe store, menu store files),
  with every awaited API call modelled as an `Except` outcome supplied by an oracle
  record (one slot per endpoint, mirroring which endpoints each method awaits);
* the submit handlers `MenuFormPageComponent.onSubmit` and
  `CafeFormDialogComponent.onSubmit`;
* the two discount-price computations (`MenuPreviewPageComponent.getFormattedPrice`,
  `MenuItemComponent.finalPrice`).

JavaScript semantics that the source relies on (string/number truthiness,
`parseInt`, `String.prototype.replace` with the `/\[(\d+)\]/g` pattern,
`String.prototype.split`, `FormArray.at` index adjustment) are modelled explicitly
by small executable functions below.
-/

/-- A thrown JavaScript value: either an `Error` carrying a `message`, or any
other thrown value (the source distinguishes them with `error instanceof Error`). -/
inductive Thrown where
  | error (message : String)
  | other
deriving DecidableEq, Repr

/-- Models `error instanceof Error ? error.message : fallback`. -/
def errMsg (e : Thrown) (fallback : String) : String :=
  match e with
  | .error m => m
  | .other => fallback

/-- Leading decimal-digit run of a character list, as a number; `none` when the
first character is not a digit (yielding `NaN` in JavaScript). -/
def digitsVal (cs : List Char) : Option Nat :=
  let ds := cs.takeWhile Char.isDigit
  if ds.isEmpty then none
  else some (ds.foldl (fun a c => a * 10 + (c.toNat - 48)) 0)

/-- JavaScript `parseInt(s, 10)`: skip leading whitespace, optional sign, then a
leading digit run; `none` models `NaN`. -/
def jsParseInt (s : String) : Option Int :=
  let cs := s.toList.dropWhile (fun c => c = ' ' || c = '\t' || c = '\n' || c = '\r')
  match cs with
  | '-' :: rest => (digitsVal rest).map (fun n => -(n : Int))
  | '+' :: rest => (digitsVal rest).map (fun n => (n : Int))
  | rest => (digitsVal rest).map (fun n => (n : Int))

/-- One pass of `backendField.replace(/\[(\d+)\]/g, '.$1')`, on character lists.
The first argument is the scanner state: `none` outside a bracket group, `some ds`
after `[` with the (reversed) digits consumed so far.  On a failed match the
consumed characters are re-emitted verbatim, exactly as the regex engine leaves
unmatched text untouched. -/
def bracketScan (st : Option (List Char)) : List Char → List Char
  | [] =>
    match st with
    | none => []
    | some ds => '[' :: ds.reverse
  | c :: rest =>
    match st with
    | none =>
      if c = '[' then bracketScan (some []) rest
      else c :: bracketScan none rest
    | some ds =>
      if c.isDigit then bracketScan (some (c :: ds)) rest
      else if c = ']' ∧ ds ≠ [] then '.' :: ds.reverse ++ bracketScan none rest
      else if c = '[' then '[' :: ds.reverse ++ bracketScan (some []) rest
      else '[' :: ds.reverse ++ c :: bracketScan none rest

/-- Models `backendField.replace(/\[(\d+)\]/g, '.$1')`. -/
def bracketToDot (s : String) : String :=
  String.mk (bracketScan none s.toList)

/-- Models `FormErrorMapperService.toFormFieldName`: bracket indices to dot segments,
then only the FIRST character of the whole string is lower-cased
(`charAt(0).toLowerCase() + slice(1)`). -/
def toFormFieldName (backendField : String) : String :=
  if backendField = "" then ""
  else
    let withDotNotation := bracketToDot backendField
    match withDotNotation.toList with
    | [] => ""
    | c :: rest => String.mk (c.toLower :: rest)

/-- JavaScript `path.split('.')` (`""` gives `[""]`, separators kept empty). -/
def splitDotsGo (acc : List Char) : List Char → List String
  | [] => [String.mk acc.reverse]
  | c :: rest =>
    if c = '.' then String.mk acc.reverse :: splitDotsGo [] rest
    else splitDotsGo (c :: acc) rest

/-- Models `path.split('.')`. -/
def splitDots (s : String) : List String :=
  splitDotsGo [] s.toList

/-! ### Validation-error values and Angular `ValidationErrors` objects -/

/-- A value stored under a key of an Angular `ValidationErrors` object.  The
mapper stores a single message string or an array of messages under `backend`;
built-in validators store flags such as `required: true`. -/
inductive ErrVal where
  | str (s : String)
  | strs (l : List String)
  | flag (b : Bool)
deriving DecidableEq, Repr

/-- JavaScript truthiness of an error value (`""` is falsy, arrays are truthy). -/
def ErrVal.truthy : ErrVal → Bool
  | .str s => s ≠ ""
  | .strs _ => true
  | .flag b => b

/-- A `ValidationErrors` object: keys in insertion order (JS object keys are
unique, so lookup is first-match). -/
abbrev ErrMap := List (String × ErrVal)

/-- Models `errors[k]` on a non-null errors object. -/
def errLookup (k : String) : ErrMap → Option ErrVal
  | [] => none
  | (k', v) :: rest => if k' = k then some v else errLookup k rest

/-- Models `delete errors[k]`. -/
def errRemove (k : String) (m : ErrMap) : ErrMap :=
  m.filter (fun p => p.1 ≠ k)

/-- Models `Object.keys(m).length > 0 ? m : null` (the shape `setErrors` is given in
`clearFormErrors`). -/
def normErrs (m : ErrMap) : Option ErrMap :=
  if m = [] then none else some m

/-- Models `errors?.[k]` on a nullable errors object. -/
def errsLookup (k : String) : Option ErrMap → Option ErrVal
  | none => none
  | some m => errLookup k m

/-- Truthiness of `errors?.['backend']`. -/
def backendTruthy (e : Option ErrMap) : Bool :=
  match errsLookup "backend" e with
  | some v => v.truthy
  | none => false

/-- The per-node effect of `clearFormErrors`: if `errors?.['backend']` is truthy,
delete the `backend` key and re-set the errors (`null` when nothing remains);
otherwise leave the errors object untouched. -/
def eraseBackend (e : Option ErrMap) : Option ErrMap :=
  match e with
  | none => none
  | some m => if backendTruthy (some m) then normErrs (errRemove "backend" m) else some m

/-! ### The Angular form-control tree -/

mutual
/-- A node of the reactive form tree: `FormControl`, `FormGroup` (named
children) or `FormArray` (indexed children), each carrying its nullable
`errors` object and its `touched` flag. -/
inductive Ctrl where
  | control (errors : Option ErrMap) (touched : Bool)
  | group (errors : Option ErrMap) (touched : Bool) (children : Kids)
  | array (errors : Option ErrMap) (touched : Bool) (children : Elems)
deriving DecidableEq, Repr
/-- The named children of a `FormGroup`, in insertion order. -/
inductive Kids where
  | nil
  | cons (name : String) (c : Ctrl) (rest : Kids)
deriving DecidableEq, Repr
/-- The positional children of a `FormArray`. -/
inductive Elems where
  | nil
  | cons (c : Ctrl) (rest : Elems)
deriving DecidableEq, Repr
end

/-- The node's `errors` property. -/
def Ctrl.errors : Ctrl → Option ErrMap
  | .control e _ => e
  | .group e _ _ => e
  | .array e _ _ => e

/-- The node's `touched` property. -/
def Ctrl.touched : Ctrl → Bool
  | .control _ t => t
  | .group _ t _ => t
  | .array _ t _ => t

/-- Models `setErrors(e)` on this node (replaces the whole errors object). -/
def Ctrl.setErrors : Ctrl → Option ErrMap → Ctrl
  | .control _ t, e => .control e t
  | .group _ t ks, e => .group e t ks
  | .array _ t es, e => .array e t es

/-- The `touched := true` part of `markAsTouched()` on this node itself. -/
def Ctrl.markTouchedSelf : Ctrl → Ctrl
  | .control e _ => .control e true
  | .group e _ ks => .group e true ks
  | .array e _ es => .array e true es

/-- Models `FormGroup.get(name)`: exact-key lookup among the named children. -/
def Kids.get (name : String) : Kids → Option Ctrl
  | .nil => none
  | .cons n c rest => if n = name then some c else Kids.get name rest

/-- Number of elements of a `FormArray`. -/
def Elems.length : Elems → Nat
  | .nil => 0
  | .cons _ rest => 1 + Elems.length rest

/-- Positional access (in-range only). -/
def Elems.get? : Elems → Nat → Option Ctrl
  | .nil, _ => none
  | .cons c _, 0 => some c
  | .cons _ rest, n + 1 => Elems.get? rest n

/-- Models `FormArray.at(i)`: a negative index is adjusted by the length
(`_adjustIndex`), out-of-range yields `undefined`. -/
def Elems.at? (es : Elems) (i : Int) : Option Ctrl :=
  let j := if i < 0 then i + (Elems.length es : Int) else i
  if 0 ≤ j then Elems.get? es j.toNat else none

/-! ### `FormErrorMapperService` over the tree -/

/-- Models `FormErrorMapperService.getControl`, unfolded loop: for each path part, a
`FormGroup` is entered by key (`control.get(part)`), a `FormArray` by
`parseInt`-ed index (`control.at(index)`); reaching a leaf with parts left, or a
failed lookup, yields `null`. -/
def getControl (c : Ctrl) : List String → Option Ctrl
  | [] => some c
  | part :: rest =>
    match c with
    | .control _ _ => none
    | .group _ _ kids =>
      match Kids.get part kids with
      | some child => getControl child rest
      | none => none
    | .array _ _ elems =>
      match jsParseInt part with
      | some i =>
        match Elems.at? elems i with
        | some child => getControl child rest
        | none => none
      | none => none

/-- Rebuild a group's children applying `f` to the child named `name`
(`none` when the name is absent or `f` fails). -/
def Kids.mapAt (name : String) (f : Ctrl → Option Ctrl) : Kids → Option Kids
  | .nil => none
  | .cons n c rest =>
    if n = name then (f c).map (fun c' => Kids.cons n c' rest)
    else (Kids.mapAt name f rest).map (fun rest' => Kids.cons n c rest')

/-- Rebuild an array's elements applying `f` at position `i`. -/
def Elems.mapAtNat (f : Ctrl → Option Ctrl) : Elems → Nat → Option Elems
  | .nil, _ => none
  | .cons c rest, 0 => (f c).map (fun c' => Elems.cons c' rest)
  | .cons c rest, n + 1 => (Elems.mapAtNat f rest n).map (fun rest' => Elems.cons c rest')

/-- Rebuild an array's elements applying `f` at (possibly negative) index `i`,
with the same index adjustment as `Elems.at?`. -/
def Elems.mapAt (i : Int) (f : Ctrl → Option Ctrl) (es : Elems) : Option Elems :=
  let j := if i < 0 then i + (Elems.length es : Int) else i
  if 0 ≤ j then Elems.mapAtNat f es j.toNat else none

/-- The functional rendering of "`getControl` then mutate the returned control
reference": walk the same branches as `getControl` and apply `f` at the target,
rebuilding the tree.  The `touched := true` on every group/array passed through
renders the ancestor half of the target's `markAsTouched()` (a parent's
`_updateTouched` makes it touched as soon as one child is); `applyAtPath` is
only ever used with `f` ending in `markAsTouched`. -/
def applyAtPath (c : Ctrl) (parts : List String) (f : Ctrl → Ctrl) : Option Ctrl :=
  match parts with
  | [] => some (f c)
  | part :: rest =>
    match c with
    | .control _ _ => none
    | .group e _ kids =>
      (Kids.mapAt part (fun child => applyAtPath child rest f) kids).map
        (fun kids' => Ctrl.group e true kids')
    | .array e _ elems =>
      match jsParseInt part with
      | some i =>
        (Elems.mapAt i (fun child => applyAtPath child rest f) elems).map
          (fun elems' => Ctrl.array e true elems')
      | none => none

mutual
/-- Models `FormErrorMapperService.clearFormErrors`: remove a truthy `backend` entry
from this node's errors (keeping all other keys), and recurse into every child;
a leaf child's errors get the same key-scoped removal inline. -/
def clearFormErrors : Ctrl → Ctrl
  | .control e t => .control (eraseBackend e) t
  | .group e t kids => .group (eraseBackend e) t (clearKids kids)
  | .array e t elems => .array (eraseBackend e) t (clearElems elems)
/-- Models `clearFormErrors` over named children. -/
def clearKids : Kids → Kids
  | .nil => .nil
  | .cons n c rest => .cons n (clearFormErrors c) (clearKids rest)
/-- Models `clearFormErrors` over array elements. -/
def clearElems : Elems → Elems
  | .nil => .nil
  | .cons c rest => .cons (clearFormErrors c) (clearElems rest)
end

mutual
/-- Models `AbstractControl.markAllAsTouched()`: this node and all descendants. -/
def markAllAsTouched : Ctrl → Ctrl
  | .control e _ => .control e true
  | .group e _ kids => .group e true (markAllKids kids)
  | .array e _ elems => .array e true (markAllElems elems)
/-- Models `markAllAsTouched` over named children. -/
def markAllKids : Kids → Kids
  | .nil => .nil
  | .cons n c rest => .cons n (markAllAsTouched c) (markAllKids rest)
/-- Models `markAllAsTouched` over array elements. -/
def markAllElems : Elems → Elems
  | .nil => .nil
  | .cons c rest => .cons (markAllAsTouched c) (markAllElems rest)
end

mutual
/-- Angular `invalid` status: a node is INVALID when it has own errors or some
descendant does (disabled/pending statuses are not modelled). -/
def invalidC : Ctrl → Bool
  | .control e _ => e.isSome
  | .group e _ kids => e.isSome || invalidKids kids
  | .array e _ elems => e.isSome || invalidElems elems
/-- Some named child is invalid. -/
def invalidKids : Kids → Bool
  | .nil => false
  | .cons _ c rest => invalidC c || invalidKids rest
/-- Some array element is invalid. -/
def invalidElems : Elems → Bool
  | .nil => false
  | .cons c rest => invalidC c || invalidElems rest
end

mutual
/-- Every node of the tree is touched. -/
def allTouched : Ctrl → Bool
  | .control _ t => t
  | .group _ t kids => t && allTouchedKids kids
  | .array _ t elems => t && allTouchedElems elems
/-- Every node under the named children is touched. -/
def allTouchedKids : Kids → Bool
  | .nil => true
  | .cons _ c rest => allTouched c && allTouchedKids rest
/-- Every node under the array elements is touched. -/
def allTouchedElems : Elems → Bool
  | .nil => true
  | .cons c rest => allTouched c && allTouchedElems rest
end

/-- A server validation error entry `{ message, code?, field? }`. -/
structure ValidationError where
  message : String
  code : Option String := none
  field : Option String := none
deriving DecidableEq, Repr

/-- JavaScript truthiness of `error.field` (absent or `""` is falsy). -/
def fieldTruthy (e : ValidationError) : Bool :=
  match e.field with
  | some s => s ≠ ""
  | none => false

/-- Models `if (!acc[k]) acc[k] = []; acc[k].push(e)`: append to the entry with key
`k`, or add a new entry at the end. -/
def pushEntry (k : String) (e : ValidationError) :
    List (String × List ValidationError) → List (String × List ValidationError)
  | [] => [(k, [e])]
  | (k', l) :: rest =>
    if k' = k then (k', l ++ [e]) :: rest
    else (k', l) :: pushEntry k e rest

/-- Models `FormErrorMapperService.groupErrorsByField`: `reduce` keeping only errors
with a truthy `field`, grouped by field in first-occurrence order. -/
def groupErrorsByField (errors : List ValidationError) :
    List (String × List ValidationError) :=
  errors.foldl (fun acc e => if fieldTruthy e then pushEntry (e.field.getD "") e acc else acc) []

/-- Models `errorMessages.length === 1 ? errorMessages[0] : errorMessages`. -/
def backendVal (msgs : List String) : ErrVal :=
  if msgs.length = 1 then .str (msgs.headD "") else .strs msgs

/-- The body of the per-field loop of `applyToForm`: translate the backend
field, locate the control, and if found replace its errors with the `backend`
entry and mark it touched; a miss leaves the form untouched. -/
def applyFieldErrors (form : Ctrl) (entry : String × List ValidationError) : Ctrl :=
  let formField := toFormFieldName entry.1
  let errVal := backendVal (entry.2.map (fun e => e.message))
  match applyAtPath form (splitDots formField)
      (fun c => Ctrl.markTouchedSelf (Ctrl.setErrors c (some [("backend", errVal)]))) with
  | some form' => form'
  | none => form

/-- Models `FormErrorMapperService.applyToForm`: clear previous `backend` errors, group
by field, apply each group to its control, then store field-less errors as a
form-level `backend` entry. -/
def applyToForm (form : Ctrl) (errors : List ValidationError) : Ctrl :=
  let form1 := clearFormErrors form
  let form2 := (groupErrorsByField errors).foldl applyFieldErrors form1
  let generalErrors := errors.filter (fun e => !(fieldTruthy e))
  if generalErrors.isEmpty then form2
  else Ctrl.setErrors form2 (some [("backend", .strs (generalErrors.map (fun e => e.message)))])

/-! ### Domain DTOs (libs/feature-cafes and libs/feature-menus models)

`MenuState`'s enum file itself is not among the sources, but its members are
fixed by their uses (`MenuState.Draft/Published/Active` in the menu store and
menu list component); `PriceUnit` likewise. Numeric JSON fields are modelled
as rationals. -/

/-- Menu lifecycle state. -/
inductive MenuState where
  | draft
  | published
  | active
deriving DecidableEq, Repr

/-- Price unit (display-only). -/
inductive PriceUnit where
  | perItem
  | per100Grams
deriving DecidableEq, Repr

/-- Models `PriceDto`. -/
structure PriceDto where
  amount : ℚ
  currency : String
  unit : PriceUnit
  discount : ℚ
deriving DecidableEq, Repr

/-- Models `IngredientDto`. -/
structure IngredientDto where
  name : String
  isExcludable : Bool
deriving DecidableEq, Repr

/-- Models `MenuItemImageDto`. -/
structure MenuItemImageDto where
  originalImageUrl : String
  thumbnailImageUrl : String
deriving DecidableEq, Repr

/-- Models `MenuItemDto`. -/
structure MenuItemDto where
  id : Option String
  name : String
  description : Option String
  price : PriceDto
  image : Option MenuItemImageDto
  ingredients : List IngredientDto
deriving DecidableEq, Repr

/-- Models `SectionDto`. -/
structure SectionDto where
  id : Option String
  name : String
  availableFrom : Option String
  availableTo : Option String
  items : List MenuItemDto
deriving DecidableEq, Repr

/-- Models `MenuDto`. -/
structure MenuDto where
  id : String
  name : String
  state : MenuState
  sections : List SectionDto
  createdAt : String
  updatedAt : String
deriving DecidableEq, Repr

/-- Models `MenuSummaryDto` (libs/feature-menus models: keyed by `menuId`). -/
structure MenuSummaryDto where
  menuId : String
  name : String
  state : MenuState
  createdAt : String
  updatedAt : String
deriving DecidableEq, Repr

/-- Models `ListMenusResponse`. -/
structure ListMenusResponse where
  menus : List MenuSummaryDto
deriving DecidableEq, Repr

/-- Models `CreateMenuResponse`. -/
structure CreateMenuResponse where
  menuId : String
deriving DecidableEq, Repr

/-- Models `PublishMenuResponse`. -/
structure PublishMenuResponse where
  menuId : String
  state : MenuState
deriving DecidableEq, Repr

/-- Models `CreateMenuRequest`. -/
structure CreateMenuRequest where
  name : String
  sections : List SectionDto
deriving DecidableEq, Repr

/-- Models `UpdateMenuRequest`. -/
structure UpdateMenuRequest where
  name : String
  sections : List SectionDto
deriving DecidableEq, Repr

/-- Models `CafeDto`. -/
structure CafeDto where
  id : String
  name : String
  contactInfo : Option String
  createdAt : String
  updatedAt : Option String
deriving DecidableEq, Repr

/-- Models `CreateCafeRequest`. -/
structure CreateCafeRequest where
  name : String
  contactInfo : Option String
deriving DecidableEq, Repr

/-- Models `CreateCafeResponse`. -/
structure CreateCafeResponse where
  cafeId : String
deriving DecidableEq, Repr

/-- Models `ListCafesResponse`. -/
structure ListCafesResponse where
  cafes : List CafeDto
deriving DecidableEq, Repr

/-! ### API outcome oracles

A store method `await`s one outcome per endpoint it uses; each awaited call is
modelled by an `Except Thrown` slot of an oracle record.  A slot the method's
code never awaits is simply never read — which makes "this method does not
re-fetch" provable (its result cannot depend on that slot). -/

/-- One outcome per `MenuApiService` endpoint used by `MenuStore`. -/
structure MenuApiOnce where
  listMenus : Except Thrown ListMenusResponse
  getMenu : Except Thrown MenuDto
  getActiveMenu : Except Thrown MenuDto
  createMenu : Except Thrown CreateMenuResponse
  updateMenu : Except Thrown Unit
  deleteMenu : Except Thrown Unit
  cloneMenu : Except Thrown CreateMenuResponse
  publishMenu : Except Thrown PublishMenuResponse
  activateMenu : Except Thrown Unit
deriving Repr

/-- One outcome per `CafeApiService` endpoint used by `CafeStore`. -/
structure CafeApiOnce where
  listCafes : Except Thrown ListCafesResponse
  getCafe : Except Thrown CafeDto
  createCafe : Except Thrown CreateCafeResponse
  deleteCafe : Except Thrown Unit
deriving Repr

/-- Models `Promise.all` over two outcomes: resolves when both do, otherwise rejects.
`Promise.all` rejects with the temporally first rejection; which of several
simultaneous rejections wins is not observable in the claims below, so the
leftmost is taken. -/
def promiseAll2 : Except Thrown α → Except Thrown β → Except Thrown (α × β)
  | .ok a, .ok b => .ok (a, b)
  | .error e, _ => .error e
  | .ok _, .error e => .error e

/-- Models `Promise.all` over three outcomes. -/
def promiseAll3 : Except Thrown α → Except Thrown β → Except Thrown γ →
    Except Thrown (α × β × γ)
  | .ok a, .ok b, .ok c => .ok (a, b, c)
  | .error e, _, _ => .error e
  | .ok _, .error e, _ => .error e
  | .ok _, .ok _, .error e => .error e

/-- An outcome is a rejection. -/
def isErr : Except Thrown α → Bool
  | .error _ => true
  | .ok _ => false

/-! ### `CafeStore` (cafe.store.ts) -/

/-- Models `CafeState`. -/
structure CafeState where
  cafes : List CafeDto
  selectedCafe : Option CafeDto
  loading : Bool
  error : Option String
deriving DecidableEq, Repr

/-- Models `initialState` of `CafeStore`. -/
def cafeInitialState : CafeState :=
  { cafes := [], selectedCafe := none, loading := false, error := none }

/-- Models `cafeCount` computed view. -/
def CafeStore.cafeCount (s : CafeState) : Nat := s.cafes.length

/-- Models `hasCafes` computed view. -/
def CafeStore.hasCafes (s : CafeState) : Bool := decide (s.cafes.length > 0)

/-- Models `CafeStore.loadCafes`. -/
def CafeStore.loadCafes (api : CafeApiOnce) (s : CafeState) : CafeState :=
  let s := { s with loading := true, error := none }
  match api.listCafes with
  | .ok response => { s with cafes := response.cafes, loading := false }
  | .error e => { s with error := some (errMsg e "Failed to load cafes"), loading := false }

/-- Models `CafeStore.selectCafe`. -/
def CafeStore.selectCafe (api : CafeApiOnce) (s : CafeState) (_cafeId : String) : CafeState :=
  let s := { s with loading := true, error := none }
  match api.getCafe with
  | .ok cafe => { s with selectedCafe := some cafe, loading := false }
  | .error e => { s with error := some (errMsg e "Failed to load cafe"), loading := false }

/-- Models `CafeStore.createCafe`: create, then reload the list from the server; any
rejection is caught and only `error`/`loading` are patched; resolves the new
cafe id, or `null` on failure. -/
def CafeStore.createCafe (api : CafeApiOnce) (s : CafeState) (_request : CreateCafeRequest) :
    CafeState × Option String :=
  let s := { s with loading := true, error := none }
  match api.createCafe with
  | .error e =>
    ({ s with error := some (errMsg e "Failed to create cafe"), loading := false }, none)
  | .ok response =>
    match api.listCafes with
    | .ok list => ({ s with cafes := list.cafes, loading := false }, some response.cafeId)
    | .error e =>
      ({ s with error := some (errMsg e "Failed to create cafe"), loading := false }, none)

/-- Models `CafeStore.deleteCafe`: delete on the server, then REMOVE FROM LOCAL STATE
(`store.cafes().filter(c => c.id !== cafeId)`) — no re-fetch. -/
def CafeStore.deleteCafe (api : CafeApiOnce) (s : CafeState) (cafeId : String) :
    CafeState × Bool :=
  let s := { s with loading := true, error := none }
  match api.deleteCafe with
  | .ok _ =>
    ({ s with
        cafes := s.cafes.filter (fun c => c.id ≠ cafeId),
        selectedCafe :=
          match s.selectedCafe with
          | some c => if c.id = cafeId then none else some c
          | none => none,
        loading := false }, true)
  | .error e =>
    ({ s with error := some (errMsg e "Failed to delete cafe"), loading := false }, false)

/-- Models `CafeStore.clearSelectedCafe`. -/
def CafeStore.clearSelectedCafe (s : CafeState) : CafeState :=
  { s with selectedCafe := none }

/-! ### `MenuStore` (menu.store.ts) -/

/-- Models `MenuStoreState`. -/
structure MenuStoreState where
  menus : List MenuSummaryDto
  selectedMenu : Option MenuDto
  activeMenu : Option MenuDto
  currentCafeId : Option String
  loading : Bool
  error : Option String
deriving DecidableEq, Repr

/-- Models `initialState` of `MenuStore`. -/
def menuInitialState : MenuStoreState :=
  { menus := [], selectedMenu := none, activeMenu := none, currentCafeId := none,
    loading := false, error := none }

/-- Models `menuCount` computed view. -/
def MenuStore.menuCount (s : MenuStoreState) : Nat := s.menus.length

/-- Models `hasMenus` computed view. -/
def MenuStore.hasMenus (s : MenuStoreState) : Bool := decide (s.menus.length > 0)

/-- Models `draftMenus` computed view. -/
def MenuStore.draftMenus (s : MenuStoreState) : List MenuSummaryDto :=
  s.menus.filter (fun m => m.state = MenuState.draft)

/-- Models `publishedMenus` computed view. -/
def MenuStore.publishedMenus (s : MenuStoreState) : List MenuSummaryDto :=
  s.menus.filter (fun m => m.state = MenuState.published)

/-- Models `activeMenus` computed view. -/
def MenuStore.activeMenus (s : MenuStoreState) : List MenuSummaryDto :=
  s.menus.filter (fun m => m.state = MenuState.active)

/-- Models `MenuStore.loadMenus`. -/
def MenuStore.loadMenus (api : MenuApiOnce) (s : MenuStoreState) (cafeId : String) :
    MenuStoreState :=
  let s := { s with loading := true, error := none, currentCafeId := some cafeId }
  match api.listMenus with
  | .ok response => { s with menus := response.menus, loading := false }
  | .error e => { s with error := some (errMsg e "Failed to load menus"), loading := false }

/-- Models `MenuStore.selectMenu`. -/
def MenuStore.selectMenu (api : MenuApiOnce) (s : MenuStoreState)
    (_cafeId _menuId : String) : MenuStoreState :=
  let s := { s with loading := true, error := none }
  match api.getMenu with
  | .ok menu => { s with selectedMenu := some menu, loading := false }
  | .error e => { s with error := some (errMsg e "Failed to load menu"), loading := false }

/-- Models `MenuStore.loadMenu` (alias for `selectMenu`). -/
def MenuStore.loadMenu (api : MenuApiOnce) (s : MenuStoreState)
    (cafeId menuId : String) : MenuStoreState :=
  MenuStore.selectMenu api s cafeId menuId

/-- Models `MenuStore.loadActiveMenu`: the catch branch only logs
(`console.info('No active menu found…')`) and patches `activeMenu: null,
loading: false` — the `error` field is NOT set on failure. -/
def MenuStore.loadActiveMenu (api : MenuApiOnce) (s : MenuStoreState)
    (_cafeId : String) : MenuStoreState :=
  let s := { s with loading := true, error := none }
  match api.getActiveMenu with
  | .ok menu => { s with activeMenu := some menu, loading := false }
  | .error _ => { s with activeMenu := none, loading := false }

/-- Models `MenuStore.createMenu`: create, then reload the list; resolves the new menu
id, or `null` after a caught rejection. -/
def MenuStore.createMenu (api : MenuApiOnce) (s : MenuStoreState)
    (_cafeId : String) (_request : CreateMenuRequest) : MenuStoreState × Option String :=
  let s := { s with loading := true, error := none }
  match api.createMenu with
  | .error e =>
    ({ s with error := some (errMsg e "Failed to create menu"), loading := false }, none)
  | .ok response =>
    match api.listMenus with
    | .ok listResponse =>
      ({ s with menus := listResponse.menus, loading := false }, some response.menuId)
    | .error e =>
      ({ s with error := some (errMsg e "Failed to create menu"), loading := false }, none)

/-- Models `MenuStore.updateMenu`: update, then `Promise.all` of menu re-fetch and list
re-fetch. -/
def MenuStore.updateMenu (api : MenuApiOnce) (s : MenuStoreState)
    (_cafeId _menuId : String) (_request : UpdateMenuRequest) : MenuStoreState × Bool :=
  let s := { s with loading := true, error := none }
  match api.updateMenu with
  | .error e =>
    ({ s with error := some (errMsg e "Failed to update menu"), loading := false }, false)
  | .ok _ =>
    match promiseAll2 api.getMenu api.listMenus with
    | .ok (menu, listResponse) =>
      ({ s with selectedMenu := some menu, menus := listResponse.menus, loading := false }, true)
    | .error e =>
      ({ s with error := some (errMsg e "Failed to update menu"), loading := false }, false)

/-- Models `MenuStore.deleteMenu`: delete on the server, then REMOVE FROM LOCAL STATE
(`store.menus().filter(m => m.menuId !== menuId)`) — no re-fetch. -/
def MenuStore.deleteMenu (api : MenuApiOnce) (s : MenuStoreState)
    (_cafeId menuId : String) : MenuStoreState × Bool :=
  let s := { s with loading := true, error := none }
  match api.deleteMenu with
  | .ok _ =>
    ({ s with
        menus := s.menus.filter (fun m => m.menuId ≠ menuId),
        selectedMenu :=
          match s.selectedMenu with
          | some m => if m.id = menuId then none else some m
          | none => none,
        loading := false }, true)
  | .error e =>
    ({ s with error := some (errMsg e "Failed to delete menu"), loading := false }, false)

/-- Models `MenuStore.cloneMenu`: clone, then reload the list. -/
def MenuStore.cloneMenu (api : MenuApiOnce) (s : MenuStoreState)
    (_cafeId _menuId _newName : String) : MenuStoreState × Option String :=
  let s := { s with loading := true, error := none }
  match api.cloneMenu with
  | .error e =>
    ({ s with error := some (errMsg e "Failed to clone menu"), loading := false }, none)
  | .ok response =>
    match api.listMenus with
    | .ok listResponse =>
      ({ s with menus := listResponse.menus, loading := false }, some response.menuId)
    | .error e =>
      ({ s with error := some (errMsg e "Failed to clone menu"), loading := false }, none)

/-- Models `MenuStore.publishMenu`: publish, then `Promise.all` of menu and list
re-fetch. -/
def MenuStore.publishMenu (api : MenuApiOnce) (s : MenuStoreState)
    (_cafeId _menuId : String) : MenuStoreState × Bool :=
  let s := { s with loading := true, error := none }
  match api.publishMenu with
  | .error e =>
    ({ s with error := some (errMsg e "Failed to publish menu"), loading := false }, false)
  | .ok _ =>
    match promiseAll2 api.getMenu api.listMenus with
    | .ok (menu, listResponse) =>
      ({ s with selectedMenu := some menu, menus := listResponse.menus, loading := false }, true)
    | .error e =>
      ({ s with error := some (errMsg e "Failed to publish menu"), loading := false }, false)

/-- Models `MenuStore.activateMenu`: activate, then `Promise.all` of menu, active menu
and list re-fetch. -/
def MenuStore.activateMenu (api : MenuApiOnce) (s : MenuStoreState)
    (_cafeId _menuId : String) : MenuStoreState × Bool :=
  let s := { s with loading := true, error := none }
  match api.activateMenu with
  | .error e =>
    ({ s with error := some (errMsg e "Failed to activate menu"), loading := false }, false)
  | .ok _ =>
    match promiseAll3 api.getMenu api.getActiveMenu api.listMenus with
    | .ok (menu, activeMenu, listResponse) =>
      ({ s with
          selectedMenu := some menu, activeMenu := some activeMenu,
          menus := listResponse.menus, loading := false }, true)
    | .error e =>
      ({ s with error := some (errMsg e "Failed to activate menu"), loading := false }, false)

/-- Models `MenuStore.clearSelectedMenu`. -/
def MenuStore.clearSelectedMenu (s : MenuStoreState) : MenuStoreState :=
  { s with selectedMenu := none }

/-- Models `MenuStore.clearMenus`. -/
def MenuStore.clearMenus (_s : MenuStoreState) : MenuStoreState :=
  menuInitialState

/-! ### Submit handlers -/

/-- Models `MenuFormPageComponent.onSubmit` control flow: when the form is invalid (or
a submission is in flight) it marks ALL fields touched and returns; when the
route's `cafeId` is falsy it returns; otherwise it proceeds to the API call.
Returns the form tree after the handler plus whether the network was called. -/
def MenuFormPageComponent.onSubmit (menuForm : Ctrl) (isSubmitting : Bool)
    (cafeId : Option String) : Ctrl × Bool :=
  if invalidC menuForm || isSubmitting then (markAllAsTouched menuForm, false)
  else if cafeId.getD "" = "" then (menuForm, false)
  else (menuForm, true)

/-- Models `CafeFormDialogComponent.onSubmit` control flow: the whole body is guarded
by `if (this.cafeForm.valid)` — an invalid form is simply skipped, with NO
touched-marking; a falsy `formValue.name` also returns before the call;
otherwise `createCafe` is called.  (`valid` is modelled as `¬invalid`.) -/
def CafeFormDialogComponent.onSubmit (cafeForm : Ctrl) (nameValue : Option String) :
    Ctrl × Bool :=
  if !(invalidC cafeForm) then
    if nameValue.getD "" = "" then (cafeForm, false)
    else (cafeForm, true)
  else (cafeForm, false)

/-! ### Discount price computations -/

/-- Models `MenuPreviewPageComponent.getFormattedPrice`'s numeric core:
`price.amount * (1 - price.discount / 100)` (the result is then only
locale-formatted). -/
def MenuPreviewPageComponent.finalPrice (amount discount : ℚ) : ℚ :=
  amount * (1 - discount / 100)

/-- Models `MenuItemComponent.finalPrice` computed signal:
`price - (price * discount / 100)` on the form's `priceAmount`/`priceDiscount`
values (their `|| 0` null-coalescing happens before this arithmetic). -/
def MenuItemComponent.finalPrice (price discount : ℚ) : ℚ :=
  price - (price * discount / 100)

/-- Modelled from the spec: "final price = amount × (1 − discount/100)" (§3
Price); stated separately from the code's two computations to compare against
them. -/
def specFinalPrice (amount discount : ℚ) : ℚ :=
  amount * (1 - discount / 100)

/-! ### A concrete menu form instance (shape of `MenuFormPageComponent`'s
`fb.group({name, sections: fb.array(...)})` with one section group
`{name, availableFrom, availableTo, items}` whose name control carries a
`required` error). -/

/-- One section group of the menu form, with a `required` error on its name. -/
def sectionGroupEx : Ctrl :=
  .group none false
    (.cons "name" (.control (some [("required", .flag true)]) false)
      (.cons "availableFrom" (.control none false)
        (.cons "availableTo" (.control none false)
          (.cons "items" (.array none false .nil) .nil))))

/-- A menu form with one section. -/
def menuFormEx : Ctrl :=
  .group none false
    (.cons "name" (.control none false)
      (.cons "sections" (.array none false (.cons sectionGroupEx .nil)) .nil))

/-! ### Shapes: the part of a form tree that `getControl` navigation depends on -/

mutual
/-- The navigation shape of a node: constructor plus child names/positions. -/
inductive Shp where
  | control
  | group (ks : ShpKids)
  | array (es : ShpElems)
deriving DecidableEq, Repr
/-- Shapes of named children. -/
inductive ShpKids where
  | nil
  | cons (n : String) (s : Shp) (r : ShpKids)
deriving DecidableEq, Repr
/-- Shapes of array elements. -/
inductive ShpElems where
  | nil
  | cons (s : Shp) (r : ShpElems)
deriving DecidableEq, Repr
end

mutual
/-- Forget errors and touched flags, keeping only the navigation shape. -/
def shape : Ctrl → Shp
  | .control _ _ => .control
  | .group _ _ ks => .group (shapeKids ks)
  | .array _ _ es => .array (shapeElems es)
/-- Shape of named children. -/
def shapeKids : Kids → ShpKids
  | .nil => .nil
  | .cons n c r => .cons n (shape c) (shapeKids r)
/-- Shape of array elements. -/
def shapeElems : Elems → ShpElems
  | .nil => .nil
  | .cons c r => .cons (shape c) (shapeElems r)
end

/-! ### The specification relation for `clearFormErrors` (claim C6) -/

/-- What clearing does to one node's errors, phrased purely in terms of
lookups: every key other than `backend` reads exactly as before; a truthy
`backend` entry is gone; a falsy one (empty-string message) reads as before. -/
def NodeErrsOK (a b : Option ErrMap) : Prop :=
  (∀ k, k ≠ "backend" → errsLookup k b = errsLookup k a)
  ∧ (backendTruthy a = true → errsLookup "backend" b = none)
  ∧ (backendTruthy a = false → errsLookup "backend" b = errsLookup "backend" a)

mutual
/-- Node-wise relation between a form tree and its cleared version: identical
structure and touched flags, and `NodeErrsOK` at every node. -/
inductive ClearRel : Ctrl → Ctrl → Prop where
  | control {e e' : Option ErrMap} {t : Bool} :
      NodeErrsOK e e' → ClearRel (.control e t) (.control e' t)
  | group {e e' : Option ErrMap} {t : Bool} {ks ks' : Kids} :
      NodeErrsOK e e' → ClearRelKids ks ks' → ClearRel (.group e t ks) (.group e' t ks')
  | array {e e' : Option ErrMap} {t : Bool} {es es' : Elems} :
      NodeErrsOK e e' → ClearRelElems es es' → ClearRel (.array e t es) (.array e' t es')
/-- Models `ClearRel` on named children, pointwise with names preserved. -/
inductive ClearRelKids : Kids → Kids → Prop where
  | nil : ClearRelKids .nil .nil
  | cons {n : String} {c c' : Ctrl} {r r' : Kids} :
      ClearRel c c' → ClearRelKids r r' → ClearRelKids (.cons n c r) (.cons n c' r')
/-- Models `ClearRel` on array elements, pointwise. -/
inductive ClearRelElems : Elems → Elems → Prop where
  | nil : ClearRelElems .nil .nil
  | cons {c c' : Ctrl} {r r' : Elems} :
      ClearRel c c' → ClearRelElems r r' → ClearRelElems (.cons c r) (.cons c' r')
end

/-! ### Helper predicates for the C7 development -/

/-- Grouped entries whose key differs from `f`. -/
def keyNeF (f : String) : String × List ValidationError → Bool :=
  fun g => g.1 ≠ f

/-- Errors with a truthy field equal to `f`. -/
def fieldIsF (f : String) : ValidationError → Bool :=
  fun e => fieldTruthy e && (e.field.getD "" = f)

/-! ### Frame predicates for claim C10 -/

/-- All `MenuStoreState` fields other than `loading`/`error` are unchanged. -/
def menuFrame (s t : MenuStoreState) : Prop :=
  t.menus = s.menus ∧ t.selectedMenu = s.selectedMenu ∧ t.activeMenu = s.activeMenu
  ∧ t.currentCafeId = s.currentCafeId

/-- All `CafeState` fields other than `loading`/`error` are unchanged. -/
def cafeFrame (s t : CafeState) : Prop :=
  t.cafes = s.cafes ∧ t.selectedCafe = s.selectedCafe

/-! ### Concrete fixtures for counterexamples and witnesses -/

/-- A `MenuApiOnce` whose every endpoint rejects with an `Error`. -/
def menuApiAllFail : MenuApiOnce :=
  { listMenus := .error (.error "network down"), getMenu := .error (.error "network down"),
    getActiveMenu := .error (.error "network down"),
    createMenu := .error (.error "network down"), updateMenu := .error (.error "network down"),
    deleteMenu := .error (.error "network down"), cloneMenu := .error (.error "network down"),
    publishMenu := .error (.error "network down"), activateMenu := .error (.error "network down") }

/-- A `CafeApiOnce` whose every endpoint rejects with an `Error`. -/
def cafeApiAllFail : CafeApiOnce :=
  { listCafes := .error (.error "network down"), getCafe := .error (.error "network down"),
    createCafe := .error (.error "network down"), deleteCafe := .error (.error "network down") }

/-- A menu summary fixture. -/
def mA : MenuSummaryDto :=
  { menuId := "m-a", name := "Breakfast", state := .active, createdAt := "t0", updatedAt := "t0" }

/-- A menu summary fixture. -/
def mB : MenuSummaryDto :=
  { menuId := "m-b", name := "Dinner", state := .draft, createdAt := "t0", updatedAt := "t0" }

/-- What the server would report for `mB` after deleting `mA` (its state was
promoted server-side), distinct from the stale local copy. -/
def mBServer : MenuSummaryDto :=
  { menuId := "m-b", name := "Dinner", state := .active, createdAt := "t0", updatedAt := "t1" }

/-- A menu store state holding `mA` and `mB`. -/
def menuStateAB : MenuStoreState :=
  { menus := [mA, mB], selectedMenu := none, activeMenu := none,
    currentCafeId := some "cafe-1", loading := false, error := none }

/-- An API oracle for the C3 delete scenario: the delete succeeds and the list
endpoint would answer `[mBServer]`. -/
def menuApiDeleteEx : MenuApiOnce :=
  { menuApiAllFail with deleteMenu := .ok (), listMenus := .ok { menus := [mBServer] } }

/-- The cafe dialog form (`fb.group({name, contactInfo})`) in a locally invalid,
fully untouched state (required error on `name`). -/
def cafeFormInvalidEx : Ctrl :=
  .group none false
    (.cons "name" (.control (some [("required", .flag true)]) false)
      (.cons "contactInfo" (.control none false) .nil))

/-- A form whose `name` control carries a falsy mapped `backend` error (empty
message) next to a `required` error. -/
def cafeBackendFalsyEx : Ctrl :=
  .group none false
    (.cons "name" (.control (some [("backend", .str ""), ("required", .flag true)]) false)
      (.cons "contactInfo" (.control none false) .nil))

/-- A full menu fixture. -/
def menuDtoEx : MenuDto :=
  { id := "m-b", name := "Dinner", state := .active, sections := [],
    createdAt := "t0", updatedAt := "t1" }

/-- A cafe fixture. -/
def cafeEx : CafeDto :=
  { id := "c-1", name := "Test Cafe", contactInfo := some "a@b.com",
    createdAt := "t0", updatedAt := none }

/-- A cafe store state holding `cafeEx`. -/
def cafeStateEx : CafeState :=
  { cafes := [cafeEx], selectedCafe := none, loading := false, error := none }

/-- A `MenuApiOnce` whose every endpoint resolves. -/
def menuApiAllOk : MenuApiOnce :=
  { listMenus := .ok { menus := [mBServer] }, getMenu := .ok menuDtoEx,
    getActiveMenu := .ok menuDtoEx, createMenu := .ok { menuId := "m-new" },
    updateMenu := .ok (), deleteMenu := .ok (), cloneMenu := .ok { menuId := "m-clone" },
    publishMenu := .ok { menuId := "m-b", state := .published }, activateMenu := .ok () }

/-- A `CafeApiOnce` whose every endpoint resolves. -/
def cafeApiAllOk : CafeApiOnce :=
  { listCafes := .ok { cafes := [cafeEx] }, getCafe := .ok cafeEx,
    createCafe := .ok { cafeId := "c-new" }, deleteCafe := .ok () }

/-- An oracle for the activation scenario: activation succeeds and the
refreshed list `[mBServer, mB]` has exactly one `Active` entry. -/
def menuApiActivateEx : MenuApiOnce :=
  { menuApiAllFail with
    activateMenu := .ok (), getMenu := .ok menuDtoEx, getActiveMenu := .ok menuDtoEx,
    listMenus := .ok { menus := [mBServer, mB] } }

/-! ## Theorems -/

mutual
/-- Models `markAllAsTouched` leaves every node touched. -/
theorem allTouched_markAllAsTouched : ∀ c : Ctrl, allTouched (markAllAsTouched c) = true
  | .control _ _ => rfl
  | .group _ _ ks => by
    simp [markAllAsTouched, allTouched, allTouchedKids_markAllKids ks]
  | .array _ _ es => by
    simp [markAllAsTouched, allTouched, allTouchedElems_markAllElems es]
/-- Models `markAllKids` leaves every node touched. -/
theorem allTouchedKids_markAllKids : ∀ ks : Kids, allTouchedKids (markAllKids ks) = true
  | .nil => rfl
  | .cons _ c r => by
    simp [markAllKids, allTouchedKids, allTouched_markAllAsTouched c,
      allTouchedKids_markAllKids r]
/-- Models `markAllElems` leaves every node touched. -/
theorem allTouchedElems_markAllElems : ∀ es : Elems, allTouchedElems (markAllElems es) = true
  | .nil => rfl
  | .cons c r => by
    simp [markAllElems, allTouchedElems, allTouched_markAllAsTouched c,
      allTouchedElems_markAllElems r]
end

mutual
/-- Models `clearFormErrors` preserves the navigation shape. -/
theorem shape_clearFormErrors : ∀ c : Ctrl, shape (clearFormErrors c) = shape c
  | .control _ _ => rfl
  | .group _ _ ks => by simp [clearFormErrors, shape, shapeKids_clearKids ks]
  | .array _ _ es => by simp [clearFormErrors, shape, shapeElems_clearElems es]
/-- Models `clearKids` preserves shapes. -/
theorem shapeKids_clearKids : ∀ ks : Kids, shapeKids (clearKids ks) = shapeKids ks
  | .nil => rfl
  | .cons _ c r => by
    simp [clearKids, shapeKids, shape_clearFormErrors c, shapeKids_clearKids r]
/-- Models `clearElems` preserves shapes. -/
theorem shapeElems_clearElems : ∀ es : Elems, shapeElems (clearElems es) = shapeElems es
  | .nil => rfl
  | .cons c r => by
    simp [clearElems, shapeElems, shape_clearFormErrors c, shapeElems_clearElems r]
end

/-- Models `setErrors` preserves the navigation shape. -/
theorem shape_setErrors (c : Ctrl) (e : Option ErrMap) : shape (Ctrl.setErrors c e) = shape c := by
  cases c <;> rfl

/-- Models `markTouchedSelf` preserves the navigation shape. -/
theorem shape_markTouchedSelf (c : Ctrl) : shape (Ctrl.markTouchedSelf c) = shape c := by
  cases c <;> rfl

/-- Removing one key does not change lookups of the other keys. -/
theorem errLookup_errRemove_ne (k r : String) (m : ErrMap) (h : k ≠ r) :
    errLookup k (errRemove r m) = errLookup k m := by
  induction m with
  | nil => rfl
  | cons p rest ih =>
    obtain ⟨k', v⟩ := p
    by_cases hk : k' = r
    · subst hk
      simp [errRemove, errLookup, List.filter] at ih ⊢
      rw [if_neg (by simpa using fun hkk => h hkk.symm)]
      simpa [errRemove] using ih
    · simp only [errRemove, List.filter] at ih ⊢
      by_cases hkk : k' = k
      · subst hkk
        simp [hk, errLookup]
      · simp [hk, errLookup, hkk]
        simpa [errRemove] using ih

/-- Removing a key removes its lookup. -/
theorem errLookup_errRemove_self (r : String) (m : ErrMap) :
    errLookup r (errRemove r m) = none := by
  induction m with
  | nil => rfl
  | cons p rest ih =>
    obtain ⟨k', v⟩ := p
    by_cases hk : k' = r
    · subst hk
      simpa [errRemove, List.filter] using ih
    · simp only [errRemove, List.filter] at ih ⊢
      simp [hk, errLookup]
      simpa [errRemove] using ih

/-- If removing `r` empties the object, every other key already read `none`. -/
theorem errLookup_of_errRemove_nil (r k : String) (m : ErrMap) (hm : errRemove r m = [])
    (h : k ≠ r) : errLookup k m = none := by
  induction m with
  | nil => rfl
  | cons p rest ih =>
    obtain ⟨k', v⟩ := p
    by_cases hk : k' = r
    · subst hk
      simp only [errRemove, List.filter] at hm
      simp only [decide_not] at hm
      simp at hm
      rw [errLookup, if_neg (by simpa using fun hkk => h hkk.symm)]
      exact ih (by simpa [errRemove] using hm)
    · exfalso
      simp [errRemove, List.filter, hk] at hm

/-- Models `eraseBackend` satisfies the node specification `NodeErrsOK`. -/
theorem eraseBackend_nodeErrsOK (e : Option ErrMap) : NodeErrsOK e (eraseBackend e) := by
  cases e with
  | none => exact ⟨fun _ _ => rfl, fun h => by simp [backendTruthy, errsLookup] at h, fun _ => rfl⟩
  | some m =>
    by_cases hb : backendTruthy (some m) = true
    · refine ⟨fun k hk => ?_, fun _ => ?_, fun hf => ?_⟩
      · simp only [eraseBackend, hb, if_true]
        unfold normErrs
        by_cases hnil : errRemove "backend" m = []
        · simp [hnil, errsLookup, errLookup_of_errRemove_nil "backend" k m hnil hk]
        · simp [hnil, errsLookup, errLookup_errRemove_ne k "backend" m hk]
      · simp only [eraseBackend, hb, if_true]
        unfold normErrs
        by_cases hnil : errRemove "backend" m = []
        · simp [hnil, errsLookup]
        · simp [hnil, errsLookup, errLookup_errRemove_self "backend" m]
      · rw [hf] at hb
        simp at hb
    · have hb' : backendTruthy (some m) = false := by simpa using hb
      refine ⟨fun k _ => ?_, fun h => absurd h hb, fun _ => ?_⟩
      · simp [eraseBackend, hb']
      · simp [eraseBackend, hb']

mutual
/-- Models `clearFormErrors` satisfies the node-wise clearing specification. -/
theorem clearRel_clearFormErrors : ∀ c : Ctrl, ClearRel c (clearFormErrors c)
  | .control e _ => ClearRel.control (eraseBackend_nodeErrsOK e)
  | .group e _ ks => ClearRel.group (eraseBackend_nodeErrsOK e) (clearRelKids_clearKids ks)
  | .array e _ es => ClearRel.array (eraseBackend_nodeErrsOK e) (clearRelElems_clearElems es)
/-- Models `clearKids` satisfies it on named children. -/
theorem clearRelKids_clearKids : ∀ ks : Kids, ClearRelKids ks (clearKids ks)
  | .nil => ClearRelKids.nil
  | .cons _ c r => ClearRelKids.cons (clearRel_clearFormErrors c) (clearRelKids_clearKids r)
/-- Models `clearElems` satisfies it on array elements. -/
theorem clearRelElems_clearElems : ∀ es : Elems, ClearRelElems es (clearElems es)
  | .nil => ClearRelElems.nil
  | .cons c r => ClearRelElems.cons (clearRel_clearFormErrors c) (clearRelElems_clearElems r)
end

/-- C6 (counterexample): clearing does NOT always remove the mapper's own
`backend` entry.  A `backend` entry holding the empty-string message (falsy in
JavaScript, so `errors?.['backend']` fails the guard) survives
`clearFormErrors` unchanged — and the second conjunct shows `applyToForm`
really does store such a falsy entry when the server reports a single
empty-message field error. -/
theorem C6_falsy_backend_survives_clear :
    (getControl (clearFormErrors cafeBackendFalsyEx) ["name"]).map Ctrl.errors
      = some (some [("backend", ErrVal.str ""), ("required", ErrVal.flag true)])
    ∧ (getControl (applyToForm cafeFormInvalidEx [⟨"", none, some "Name"⟩]) ["name"]).map
        Ctrl.errors = some (some [("backend", ErrVal.str "")]) := by
  decide

/-- C6 (amended): `clearFormErrors` performs key-scoped removal at the form
level and recursively at every nested group, array and control: at each node,
every error key other than `backend` reads exactly as before, a truthy
`backend` entry is removed, and a falsy `backend` entry (empty-string message)
is left in place; structure and touched flags are untouched. -/
theorem C6_clear_removes_only_backend (c : Ctrl) : ClearRel c (clearFormErrors c) :=
  clearRel_clearFormErrors c

/-- C1 (code bug, evaluated at the failing input): `toFormFieldName` lower-cases
only the first character of the whole path, so the external path
`"Sections[0].Name"` is translated to `"sections.0.Name"` — not to the
internal path `"sections.0.name"` promised by the mapper's own doc comment and
the spec.  On the menu form (whose control keys are camelCase) the translated
path resolves to no control although the internal path does, so after
`applyToForm` the section-name control carries no `backend` error at all: its
errors are exactly the pre-existing `required` annotation. -/
theorem C1_nested_path_translation_bug :
    toFormFieldName "Sections[0].Name" = "sections.0.Name"
    ∧ toFormFieldName "Sections[0].Name" ≠ "sections.0.name"
    ∧ getControl menuFormEx (splitDots (toFormFieldName "Sections[0].Name")) = none
    ∧ getControl menuFormEx ["sections", "0", "name"]
        = some (.control (some [("required", .flag true)]) false)
    ∧ (getControl (applyToForm menuFormEx [⟨"required", none, some "Sections[0].Name"⟩])
        ["sections", "0", "name"]).map Ctrl.errors
        = some (some [("required", ErrVal.flag true)]) := by
  decide

/-- C9: over exact rational arithmetic, the preview page's
`amount * (1 - discount / 100)`, the item component's
`price - (price * discount / 100)` and the spec's `amount × (1 − discount/100)`
all agree, for every amount ≥ 0 and discount in [0, 100]. -/
theorem C9_price_formulas_agree (amount discount : ℚ) (_h0 : 0 ≤ amount)
    (_h1 : 0 ≤ discount) (_h2 : discount ≤ 100) :
    MenuPreviewPageComponent.finalPrice amount discount
        = MenuItemComponent.finalPrice amount discount
    ∧ MenuPreviewPageComponent.finalPrice amount discount = specFinalPrice amount discount := by
  constructor
  · unfold MenuPreviewPageComponent.finalPrice MenuItemComponent.finalPrice
    ring
  · rfl

/-- Witness for C9 at amount 10, discount 25. -/
theorem C9_price_formulas_agree_witness :
    MenuPreviewPageComponent.finalPrice 10 25 = MenuItemComponent.finalPrice 10 25
    ∧ MenuPreviewPageComponent.finalPrice 10 25 = specFinalPrice 10 25 :=
  C9_price_formulas_agree 10 25 (by norm_num) (by norm_num) (by norm_num)

/-- C5 (counterexample): the cafe dialog's `onSubmit` is guarded by
`if (this.cafeForm.valid)`, so on a locally invalid form it aborts without an
API call but does NOT mark the fields touched: the form comes back unchanged,
with its untouched controls still untouched. -/
theorem C5_cafe_dialog_skips_touch_marking :
    invalidC cafeFormInvalidEx = true
    ∧ CafeFormDialogComponent.onSubmit cafeFormInvalidEx (some "") = (cafeFormInvalidEx, false)
    ∧ allTouched (CafeFormDialogComponent.onSubmit cafeFormInvalidEx (some "")).1 = false := by
  decide

/-- C5 (amended): on a locally invalid form both submit handlers abort without
calling the network; the menu form page additionally marks every field
touched, while the cafe dialog leaves the form (including all touched flags)
unchanged. -/
theorem C5_invalid_submit_aborts (menuForm cafeForm : Ctrl) (isSubmitting : Bool)
    (cafeId nameValue : Option String) (hm : invalidC menuForm = true)
    (hc : invalidC cafeForm = true) :
    (MenuFormPageComponent.onSubmit menuForm isSubmitting cafeId).2 = false
    ∧ allTouched (MenuFormPageComponent.onSubmit menuForm isSubmitting cafeId).1 = true
    ∧ CafeFormDialogComponent.onSubmit cafeForm nameValue = (cafeForm, false) := by
  refine ⟨?_, ?_, ?_⟩
  · simp [MenuFormPageComponent.onSubmit, hm]
  · simp [MenuFormPageComponent.onSubmit, hm, allTouched_markAllAsTouched]
  · simp [CafeFormDialogComponent.onSubmit, hc]

/-- Witness for C5 on the concrete invalid forms. -/
theorem C5_invalid_submit_aborts_witness :
    (MenuFormPageComponent.onSubmit cafeFormInvalidEx false (some "cafe-1")).2 = false
    ∧ allTouched (MenuFormPageComponent.onSubmit cafeFormInvalidEx false (some "cafe-1")).1 = true
    ∧ CafeFormDialogComponent.onSubmit cafeFormInvalidEx (some "") = (cafeFormInvalidEx, false) :=
  C5_invalid_submit_aborts cafeFormInvalidEx cafeFormInvalidEx false (some "cafe-1") (some "")
    (by decide) (by decide)

/-- C4 (counterexample): when `getActiveMenu` rejects, `loadActiveMenu`'s catch
branch only logs and patches `activeMenu: null, loading: false` — the store's
`error` field stays `null` instead of receiving a user-displayable string. -/
theorem C4_loadActiveMenu_reports_no_error :
    (MenuStore.loadActiveMenu menuApiAllFail menuInitialState "cafe-1").error = none
    ∧ (MenuStore.loadActiveMenu menuApiAllFail menuInitialState "cafe-1").activeMenu = none := by
  decide

/-- C4 (amended): every `load*` method returns nothing and resolves normally on
every API outcome (the embedding is total, so no rejection escapes).
`loadCafes`, `selectCafe`, `loadMenus` and `selectMenu`/`loadMenu` report a
failure by setting `error` to a user-displayable string; `loadActiveMenu`
instead treats failure as "no active menu": it clears `activeMenu` and leaves
`error` unset. -/
theorem C4_load_methods_error_reporting (mApi : MenuApiOnce) (cApi : CafeApiOnce)
    (ms : MenuStoreState) (cs : CafeState) (cafeId menuId : String) (e : Thrown) :
    (cApi.listCafes = .error e →
      (CafeStore.loadCafes cApi cs).error = some (errMsg e "Failed to load cafes"))
    ∧ (cApi.getCafe = .error e →
      (CafeStore.selectCafe cApi cs cafeId).error = some (errMsg e "Failed to load cafe"))
    ∧ (mApi.listMenus = .error e →
      (MenuStore.loadMenus mApi ms cafeId).error = some (errMsg e "Failed to load menus"))
    ∧ (mApi.getMenu = .error e →
      (MenuStore.selectMenu mApi ms cafeId menuId).error = some (errMsg e "Failed to load menu")
      ∧ (MenuStore.loadMenu mApi ms cafeId menuId).error
          = some (errMsg e "Failed to load menu"))
    ∧ (mApi.getActiveMenu = .error e →
      (MenuStore.loadActiveMenu mApi ms cafeId).error = none
      ∧ (MenuStore.loadActiveMenu mApi ms cafeId).activeMenu = none) := by
  refine ⟨fun h => ?_, fun h => ?_, fun h => ?_, fun h => ?_, fun h => ?_⟩
  · simp [CafeStore.loadCafes, h]
  · simp [CafeStore.selectCafe, h]
  · simp [MenuStore.loadMenus, h]
  · exact ⟨by simp [MenuStore.selectMenu, h], by simp [MenuStore.loadMenu, MenuStore.selectMenu, h]⟩
  · exact ⟨by simp [MenuStore.loadActiveMenu, h], by simp [MenuStore.loadActiveMenu, h]⟩

/-- Witness for C4 on the all-failing oracles. -/
theorem C4_load_methods_error_reporting_witness :
    (CafeStore.loadCafes cafeApiAllFail cafeInitialState).error = some "network down"
    ∧ (CafeStore.selectCafe cafeApiAllFail cafeInitialState "c1").error = some "network down"
    ∧ (MenuStore.loadMenus menuApiAllFail menuInitialState "c1").error = some "network down"
    ∧ ((MenuStore.selectMenu menuApiAllFail menuInitialState "c1" "m1").error
        = some "network down"
      ∧ (MenuStore.loadMenu menuApiAllFail menuInitialState "c1" "m1").error
        = some "network down")
    ∧ ((MenuStore.loadActiveMenu menuApiAllFail menuInitialState "c1").error = none
      ∧ (MenuStore.loadActiveMenu menuApiAllFail menuInitialState "c1").activeMenu = none) := by
  have h := C4_load_methods_error_reporting menuApiAllFail cafeApiAllFail menuInitialState
    cafeInitialState "c1" "m1" (.error "network down")
  exact ⟨h.1 rfl, h.2.1 rfl, h.2.2.1 rfl, h.2.2.2.1 rfl, h.2.2.2.2 rfl⟩

/-- C2: after a successful `activateMenu` (activation plus the post-activation
`Promise.all` re-fetch of menu, active menu and list), the store's `menus`
collection is exactly the refreshed server list, so whenever the server's
refreshed list itself has at most one `Active` menu, the store's `activeMenus`
computed view has at most one entry — regardless of the previous state. -/
theorem C2_activateMenu_single_active (api : MenuApiOnce) (s : MenuStoreState)
    (cafeId menuId : String) (menu act : MenuDto) (listResponse : ListMenusResponse)
    (hact : api.activateMenu = .ok ()) (hget : api.getMenu = .ok menu)
    (hactive : api.getActiveMenu = .ok act) (hlist : api.listMenus = .ok listResponse)
    (hsrv : (listResponse.menus.filter (fun m => m.state = MenuState.active)).length ≤ 1) :
    (MenuStore.activeMenus (MenuStore.activateMenu api s cafeId menuId).1).length ≤ 1 := by
  simp only [MenuStore.activateMenu, hact, hget, hactive, hlist, promiseAll3,
    MenuStore.activeMenus]
  exact hsrv

/-- Witness for C2 on the concrete activation scenario. -/
theorem C2_activateMenu_single_active_witness :
    (MenuStore.activeMenus
      (MenuStore.activateMenu menuApiActivateEx menuStateAB "cafe-1" "m-b").1).length ≤ 1 :=
  C2_activateMenu_single_active menuApiActivateEx menuStateAB "cafe-1" "m-b"
    menuDtoEx menuDtoEx { menus := [mBServer, mB] } rfl rfl rfl rfl (by decide)

/-- C3 (counterexample): after a successful `deleteMenu` the store keeps the
locally filtered stale copy `[mB]`, not the list the server would return
(`[mBServer]`, where `mB`'s state changed server-side) — and the result does
not change at all when the list endpoint's would-be answer is replaced by a
rejection, showing `deleteMenu` never consults it.  So delete does NOT
"refresh the affected slices by re-fetching them from the server". -/
theorem C3_deleteMenu_does_not_refetch :
    (MenuStore.deleteMenu menuApiDeleteEx menuStateAB "cafe-1" "m-a").1.menus = [mB]
    ∧ menuApiDeleteEx.listMenus = .ok { menus := [mBServer] }
    ∧ [mB] ≠ [mBServer]
    ∧ MenuStore.deleteMenu { menuApiDeleteEx with listMenus := .error .other }
        menuStateAB "cafe-1" "m-a"
      = MenuStore.deleteMenu menuApiDeleteEx menuStateAB "cafe-1" "m-a" :=
  ⟨by decide, rfl, by decide, rfl⟩

/-- C3 (amended): `create*`, `update*` and the domain transitions (`clone`,
`publish`, `activate`) do refresh the affected slices from the server before
resolving (the re-fetched responses replace the slices), but `deleteCafe` and
`deleteMenu` instead patch locally, filtering the deleted id out of the
in-memory collection without any re-fetch. -/
theorem C3_refresh_after_mutate_behaviour (mApi : MenuApiOnce) (cApi : CafeApiOnce)
    (ms : MenuStoreState) (cs : CafeState) (cafeId menuId newName : String)
    (creq : CreateCafeRequest) (mreq : CreateMenuRequest) (ureq : UpdateMenuRequest)
    (cresp : CreateCafeResponse) (mresp mresp2 : CreateMenuResponse) (menu : MenuDto)
    (presp : PublishMenuResponse) (lm : ListMenusResponse) (lc : ListCafesResponse) :
    (cApi.createCafe = .ok cresp → cApi.listCafes = .ok lc →
      (CafeStore.createCafe cApi cs creq).1.cafes = lc.cafes)
    ∧ (mApi.createMenu = .ok mresp → mApi.listMenus = .ok lm →
      (MenuStore.createMenu mApi ms cafeId mreq).1.menus = lm.menus)
    ∧ (mApi.updateMenu = .ok () → mApi.getMenu = .ok menu → mApi.listMenus = .ok lm →
      (MenuStore.updateMenu mApi ms cafeId menuId ureq).1.menus = lm.menus
      ∧ (MenuStore.updateMenu mApi ms cafeId menuId ureq).1.selectedMenu = some menu)
    ∧ (mApi.cloneMenu = .ok mresp2 → mApi.listMenus = .ok lm →
      (MenuStore.cloneMenu mApi ms cafeId menuId newName).1.menus = lm.menus)
    ∧ (mApi.publishMenu = .ok presp → mApi.getMenu = .ok menu → mApi.listMenus = .ok lm →
      (MenuStore.publishMenu mApi ms cafeId menuId).1.menus = lm.menus)
    ∧ (mApi.activateMenu = .ok () → mApi.getMenu = .ok menu →
        mApi.getActiveMenu = .ok menu → mApi.listMenus = .ok lm →
      (MenuStore.activateMenu mApi ms cafeId menuId).1.menus = lm.menus)
    ∧ (mApi.deleteMenu = .ok () →
      (MenuStore.deleteMenu mApi ms cafeId menuId).1.menus
        = ms.menus.filter (fun m => m.menuId ≠ menuId))
    ∧ (cApi.deleteCafe = .ok () →
      (CafeStore.deleteCafe cApi cs cafeId).1.cafes
        = cs.cafes.filter (fun c => c.id ≠ cafeId)) := by
  refine ⟨fun h1 h2 => ?_, fun h1 h2 => ?_, fun h1 h2 h3 => ?_, fun h1 h2 => ?_,
    fun h1 h2 h3 => ?_, fun h1 h2 h3 h4 => ?_, fun h1 => ?_, fun h1 => ?_⟩
  · simp [CafeStore.createCafe, h1, h2]
  · simp [MenuStore.createMenu, h1, h2]
  · constructor <;> simp [MenuStore.updateMenu, h1, h2, h3, promiseAll2]
  · simp [MenuStore.cloneMenu, h1, h2]
  · simp [MenuStore.publishMenu, h1, h2, h3, promiseAll2]
  · simp [MenuStore.activateMenu, h1, h2, h3, h4, promiseAll3]
  · simp [MenuStore.deleteMenu, h1]
  · simp [CafeStore.deleteCafe, h1]

/-- Witness for C3 on the all-resolving oracles. -/
theorem C3_refresh_after_mutate_behaviour_witness :
    (CafeStore.createCafe cafeApiAllOk cafeStateEx ⟨"Test Cafe", some "a@b.com"⟩).1.cafes
        = [cafeEx]
    ∧ (MenuStore.createMenu menuApiAllOk menuStateAB "c-1" ⟨"Menu", []⟩).1.menus = [mBServer]
    ∧ ((MenuStore.updateMenu menuApiAllOk menuStateAB "c-1" "m-b" ⟨"Menu", []⟩).1.menus
          = [mBServer]
      ∧ (MenuStore.updateMenu menuApiAllOk menuStateAB "c-1" "m-b" ⟨"Menu", []⟩).1.selectedMenu
          = some menuDtoEx)
    ∧ (MenuStore.cloneMenu menuApiAllOk menuStateAB "c-1" "m-b" "Copy").1.menus = [mBServer]
    ∧ (MenuStore.publishMenu menuApiAllOk menuStateAB "c-1" "m-b").1.menus = [mBServer]
    ∧ (MenuStore.activateMenu menuApiAllOk menuStateAB "c-1" "m-b").1.menus = [mBServer]
    ∧ (MenuStore.deleteMenu menuApiAllOk menuStateAB "c-1" "m-b").1.menus
        = menuStateAB.menus.filter (fun m => m.menuId ≠ "m-b")
    ∧ (CafeStore.deleteCafe cafeApiAllOk cafeStateEx "c-1").1.cafes
        = cafeStateEx.cafes.filter (fun c => c.id ≠ "c-1") := by
  have h := C3_refresh_after_mutate_behaviour menuApiAllOk cafeApiAllOk menuStateAB cafeStateEx
    "c-1" "m-b" "Copy" ⟨"Test Cafe", some "a@b.com"⟩ ⟨"Menu", []⟩ ⟨"Menu", []⟩
    { cafeId := "c-new" } { menuId := "m-new" } { menuId := "m-clone" } menuDtoEx
    { menuId := "m-b", state := .published } { menus := [mBServer] } { cafes := [cafeEx] }
  exact ⟨h.1 rfl rfl, h.2.1 rfl rfl, h.2.2.1 rfl rfl rfl, h.2.2.2.1 rfl rfl,
    h.2.2.2.2.1 rfl rfl rfl, h.2.2.2.2.2.1 rfl rfl rfl rfl,
    h.2.2.2.2.2.2.1 rfl, h.2.2.2.2.2.2.2 rfl⟩

/-- C8: when the target id occurs exactly once in the collection (split as
`l₁ ++ [hit] ++ l₂` with the hit the only match), a successful `deleteMenu`
(resp. `deleteCafe`) leaves the collection equal to the previous one with
exactly that entity removed — all other entities untouched, in their original
relative order. -/
theorem C8_delete_removes_exactly_one (mApi : MenuApiOnce) (cApi : CafeApiOnce)
    (ms : MenuStoreState) (cs : CafeState) (cafeId menuId : String)
    (l₁ l₂ : List MenuSummaryDto) (m : MenuSummaryDto) (k₁ k₂ : List CafeDto) (c : CafeDto) :
    (mApi.deleteMenu = .ok () → ms.menus = l₁ ++ m :: l₂ → m.menuId = menuId →
      (∀ x ∈ l₁, x.menuId ≠ menuId) → (∀ x ∈ l₂, x.menuId ≠ menuId) →
      (MenuStore.deleteMenu mApi ms cafeId menuId).1.menus = l₁ ++ l₂)
    ∧ (cApi.deleteCafe = .ok () → cs.cafes = k₁ ++ c :: k₂ → c.id = cafeId →
      (∀ x ∈ k₁, x.id ≠ cafeId) → (∀ x ∈ k₂, x.id ≠ cafeId) →
      (CafeStore.deleteCafe cApi cs cafeId).1.cafes = k₁ ++ k₂) := by
  constructor
  · intro h1 hms hm hl1 hl2
    have hf1 : List.filter (fun x => !decide (x.menuId = menuId)) l₁ = l₁ :=
      List.filter_eq_self.mpr (fun a ha => by simpa using hl1 a ha)
    have hf2 : List.filter (fun x => !decide (x.menuId = menuId)) l₂ = l₂ :=
      List.filter_eq_self.mpr (fun a ha => by simpa using hl2 a ha)
    simp [MenuStore.deleteMenu, h1, hms, List.filter_append, List.filter_cons, hm, hf1, hf2]
  · intro h1 hcs hc hk1 hk2
    have hf1 : List.filter (fun x => !decide (x.id = cafeId)) k₁ = k₁ :=
      List.filter_eq_self.mpr (fun a ha => by simpa using hk1 a ha)
    have hf2 : List.filter (fun x => !decide (x.id = cafeId)) k₂ = k₂ :=
      List.filter_eq_self.mpr (fun a ha => by simpa using hk2 a ha)
    simp [CafeStore.deleteCafe, h1, hcs, List.filter_append, List.filter_cons, hc, hf1, hf2]

/-- Witness for C8: deleting `m-a` from `[mA, mB]` and `c-1` from `[cafeEx]`. -/
theorem C8_delete_removes_exactly_one_witness :
    (MenuStore.deleteMenu menuApiAllOk menuStateAB "c-1" "m-a").1.menus = [] ++ [mB]
    ∧ (CafeStore.deleteCafe cafeApiAllOk cafeStateEx "c-1").1.cafes = [] ++ [] := by
  have h := C8_delete_removes_exactly_one menuApiAllOk cafeApiAllOk menuStateAB cafeStateEx
    "c-1" "m-a" [] [mB] mA [] [] cafeEx
  exact ⟨h.1 rfl rfl rfl (by simp) (by decide), h.2 rfl rfl rfl (by simp) (by simp)⟩

/-- C10: when the API call of a mutating store method, or any of its follow-up
refresh calls, rejects, the method resolves to `null`/`false` and the caught
branch patches only `loading`/`error`: `cafes`, `selectedCafe`, `menus`,
`selectedMenu`, `activeMenu` and `currentCafeId` keep exactly their previous
values. -/
theorem C10_mutation_failure_preserves_state (mApi : MenuApiOnce) (cApi : CafeApiOnce)
    (ms : MenuStoreState) (cs : CafeState) (cafeId menuId newName : String)
    (creq : CreateCafeRequest) (mreq : CreateMenuRequest) (ureq : UpdateMenuRequest) :
    (isErr cApi.createCafe = true ∨ isErr cApi.listCafes = true →
      cafeFrame cs (CafeStore.createCafe cApi cs creq).1
      ∧ (CafeStore.createCafe cApi cs creq).2 = none)
    ∧ (isErr cApi.deleteCafe = true →
      cafeFrame cs (CafeStore.deleteCafe cApi cs cafeId).1
      ∧ (CafeStore.deleteCafe cApi cs cafeId).2 = false)
    ∧ (isErr mApi.createMenu = true ∨ isErr mApi.listMenus = true →
      menuFrame ms (MenuStore.createMenu mApi ms cafeId mreq).1
      ∧ (MenuStore.createMenu mApi ms cafeId mreq).2 = none)
    ∧ (isErr mApi.updateMenu = true ∨ isErr mApi.getMenu = true
        ∨ isErr mApi.listMenus = true →
      menuFrame ms (MenuStore.updateMenu mApi ms cafeId menuId ureq).1
      ∧ (MenuStore.updateMenu mApi ms cafeId menuId ureq).2 = false)
    ∧ (isErr mApi.deleteMenu = true →
      menuFrame ms (MenuStore.deleteMenu mApi ms cafeId menuId).1
      ∧ (MenuStore.deleteMenu mApi ms cafeId menuId).2 = false)
    ∧ (isErr mApi.cloneMenu = true ∨ isErr mApi.listMenus = true →
      menuFrame ms (MenuStore.cloneMenu mApi ms cafeId menuId newName).1
      ∧ (MenuStore.cloneMenu mApi ms cafeId menuId newName).2 = none)
    ∧ (isErr mApi.publishMenu = true ∨ isErr mApi.getMenu = true
        ∨ isErr mApi.listMenus = true →
      menuFrame ms (MenuStore.publishMenu mApi ms cafeId menuId).1
      ∧ (MenuStore.publishMenu mApi ms cafeId menuId).2 = false)
    ∧ (isErr mApi.activateMenu = true ∨ isErr mApi.getMenu = true
        ∨ isErr mApi.getActiveMenu = true ∨ isErr mApi.listMenus = true →
      menuFrame ms (MenuStore.activateMenu mApi ms cafeId menuId).1
      ∧ (MenuStore.activateMenu mApi ms cafeId menuId).2 = false) := by
  refine ⟨fun h => ?_, fun h => ?_, fun h => ?_, fun h => ?_, fun h => ?_, fun h => ?_,
    fun h => ?_, fun h => ?_⟩
  · cases hc : cApi.createCafe with
    | error e => simp [CafeStore.createCafe, hc, cafeFrame]
    | ok r =>
      cases hl : cApi.listCafes with
      | error e2 => simp [CafeStore.createCafe, hc, hl, cafeFrame]
      | ok l => rcases h with h | h <;> simp [isErr, hc, hl] at h
  · cases hc : cApi.deleteCafe with
    | error e => simp [CafeStore.deleteCafe, hc, cafeFrame]
    | ok r => simp [isErr, hc] at h
  · cases hc : mApi.createMenu with
    | error e => simp [MenuStore.createMenu, hc, menuFrame]
    | ok r =>
      cases hl : mApi.listMenus with
      | error e2 => simp [MenuStore.createMenu, hc, hl, menuFrame]
      | ok l => rcases h with h | h <;> simp [isErr, hc, hl] at h
  · cases hc : mApi.updateMenu with
    | error e => simp [MenuStore.updateMenu, hc, menuFrame]
    | ok r =>
      cases hg : mApi.getMenu with
      | error e2 => simp [MenuStore.updateMenu, hc, hg, promiseAll2, menuFrame]
      | ok g =>
        cases hl : mApi.listMenus with
        | error e3 => simp [MenuStore.updateMenu, hc, hg, hl, promiseAll2, menuFrame]
        | ok l => rcases h with h | h | h <;> simp [isErr, hc, hg, hl] at h
  · cases hc : mApi.deleteMenu with
    | error e => simp [MenuStore.deleteMenu, hc, menuFrame]
    | ok r => simp [isErr, hc] at h
  · cases hc : mApi.cloneMenu with
    | error e => simp [MenuStore.cloneMenu, hc, menuFrame]
    | ok r =>
      cases hl : mApi.listMenus with
      | error e2 => simp [MenuStore.cloneMenu, hc, hl, menuFrame]
      | ok l => rcases h with h | h <;> simp [isErr, hc, hl] at h
  · cases hc : mApi.publishMenu with
    | error e => simp [MenuStore.publishMenu, hc, menuFrame]
    | ok r =>
      cases hg : mApi.getMenu with
      | error e2 => simp [MenuStore.publishMenu, hc, hg, promiseAll2, menuFrame]
      | ok g =>
        cases hl : mApi.listMenus with
        | error e3 => simp [MenuStore.publishMenu, hc, hg, hl, promiseAll2, menuFrame]
        | ok l => rcases h with h | h | h <;> simp [isErr, hc, hg, hl] at h
  · cases hc : mApi.activateMenu with
    | error e => simp [MenuStore.activateMenu, hc, menuFrame]
    | ok r =>
      cases hg : mApi.getMenu with
      | error e2 => simp [MenuStore.activateMenu, hc, hg, promiseAll3, menuFrame]
      | ok g =>
        cases ha : mApi.getActiveMenu with
        | error e3 => simp [MenuStore.activateMenu, hc, hg, ha, promiseAll3, menuFrame]
        | ok a =>
          cases hl : mApi.listMenus with
          | error e4 => simp [MenuStore.activateMenu, hc, hg, ha, hl, promiseAll3, menuFrame]
          | ok l => rcases h with h | h | h | h <;> simp [isErr, hc, hg, ha, hl] at h

/-- Witness for C10 on the all-rejecting oracles. -/
theorem C10_mutation_failure_preserves_state_witness :
    (cafeFrame cafeStateEx (CafeStore.createCafe cafeApiAllFail cafeStateEx ⟨"X", none⟩).1
      ∧ (CafeStore.createCafe cafeApiAllFail cafeStateEx ⟨"X", none⟩).2 = none)
    ∧ (cafeFrame cafeStateEx (CafeStore.deleteCafe cafeApiAllFail cafeStateEx "c-1").1
      ∧ (CafeStore.deleteCafe cafeApiAllFail cafeStateEx "c-1").2 = false)
    ∧ (menuFrame menuStateAB (MenuStore.createMenu menuApiAllFail menuStateAB "c-1" ⟨"M", []⟩).1
      ∧ (MenuStore.createMenu menuApiAllFail menuStateAB "c-1" ⟨"M", []⟩).2 = none)
    ∧ (menuFrame menuStateAB
        (MenuStore.updateMenu menuApiAllFail menuStateAB "c-1" "m-a" ⟨"M", []⟩).1
      ∧ (MenuStore.updateMenu menuApiAllFail menuStateAB "c-1" "m-a" ⟨"M", []⟩).2 = false)
    ∧ (menuFrame menuStateAB (MenuStore.deleteMenu menuApiAllFail menuStateAB "c-1" "m-a").1
      ∧ (MenuStore.deleteMenu menuApiAllFail menuStateAB "c-1" "m-a").2 = false)
    ∧ (menuFrame menuStateAB (MenuStore.cloneMenu menuApiAllFail menuStateAB "c-1" "m-a" "N").1
      ∧ (MenuStore.cloneMenu menuApiAllFail menuStateAB "c-1" "m-a" "N").2 = none)
    ∧ (menuFrame menuStateAB (MenuStore.publishMenu menuApiAllFail menuStateAB "c-1" "m-a").1
      ∧ (MenuStore.publishMenu menuApiAllFail menuStateAB "c-1" "m-a").2 = false)
    ∧ (menuFrame menuStateAB (MenuStore.activateMenu menuApiAllFail menuStateAB "c-1" "m-a").1
      ∧ (MenuStore.activateMenu menuApiAllFail menuStateAB "c-1" "m-a").2 = false) := by
  have h := C10_mutation_failure_preserves_state menuApiAllFail cafeApiAllFail menuStateAB
    cafeStateEx "c-1" "m-a" "N" ⟨"X", none⟩ ⟨"M", []⟩ ⟨"M", []⟩
  exact ⟨h.1 (Or.inl rfl), h.2.1 rfl, h.2.2.1 (Or.inl rfl), h.2.2.2.1 (Or.inl rfl),
    h.2.2.2.2.1 rfl, h.2.2.2.2.2.1 (Or.inl rfl), h.2.2.2.2.2.2.1 (Or.inl rfl),
    h.2.2.2.2.2.2.2 (Or.inl rfl)⟩

/-- Children with equal shape lists give `get` results with equal shapes. -/
theorem kidsGet_shape : ∀ (ka kb : Kids), shapeKids ka = shapeKids kb →
    ∀ p, (Kids.get p ka).map shape = (Kids.get p kb).map shape
  | .nil, .nil, _, _ => rfl
  | .nil, .cons _ _ _, h, _ => by simp [shapeKids] at h
  | .cons _ _ _, .nil, h, _ => by simp [shapeKids] at h
  | .cons n c r, .cons n2 c2 r2, h, p => by
    simp only [shapeKids, ShpKids.cons.injEq] at h
    obtain ⟨hn, hc, hr⟩ := h
    subst hn
    by_cases hp : n = p
    · simp [Kids.get, hp, hc]
    · simpa only [Kids.get, hp, if_false] using kidsGet_shape r r2 hr p

/-- Element lists with equal shape lists have equal lengths. -/
theorem elemsLen_shape : ∀ (ea eb : Elems), shapeElems ea = shapeElems eb →
    Elems.length ea = Elems.length eb
  | .nil, .nil, _ => rfl
  | .nil, .cons _ _, h => by simp [shapeElems] at h
  | .cons _ _, .nil, h => by simp [shapeElems] at h
  | .cons c r, .cons c2 r2, h => by
    simp only [shapeElems, ShpElems.cons.injEq] at h
    simp [Elems.length, elemsLen_shape r r2 h.2]

/-- Element lists with equal shape lists give `get?` results with equal
shapes. -/
theorem elemsGetNat_shape : ∀ (ea eb : Elems), shapeElems ea = shapeElems eb →
    ∀ i, (Elems.get? ea i).map shape = (Elems.get? eb i).map shape
  | .nil, .nil, _, _ => rfl
  | .nil, .cons _ _, h, _ => by simp [shapeElems] at h
  | .cons _ _, .nil, h, _ => by simp [shapeElems] at h
  | .cons c r, .cons c2 r2, h, i => by
    simp only [shapeElems, ShpElems.cons.injEq] at h
    cases i with
    | zero => simpa [Elems.get?] using h.1
    | succ j => simpa only [Elems.get?] using elemsGetNat_shape r r2 h.2 j

/-- Element lists with equal shape lists give `at?` results with equal
shapes. -/
theorem elemsAt_shape (ea eb : Elems) (h : shapeElems ea = shapeElems eb) (i : Int) :
    (Elems.at? ea i).map shape = (Elems.at? eb i).map shape := by
  simp only [Elems.at?, elemsLen_shape ea eb h]
  split_ifs <;> first | exact elemsGetNat_shape ea eb h _ | rfl

/-- Models `getControl` navigation depends only on the navigation shape: trees of
equal shape resolve the same paths, to controls of equal shape. -/
theorem getControl_shape : ∀ (parts : List String) (a b : Ctrl), shape a = shape b →
    (getControl a parts).map shape = (getControl b parts).map shape
  | [], _, _, h => by simpa [getControl] using h
  | _ :: _, .control _ _, .control _ _, _ => rfl
  | _ :: _, .control _ _, .group _ _ _, h => by simp [shape] at h
  | _ :: _, .control _ _, .array _ _ _, h => by simp [shape] at h
  | _ :: _, .group _ _ _, .control _ _, h => by simp [shape] at h
  | _ :: _, .group _ _ _, .array _ _ _, h => by simp [shape] at h
  | _ :: _, .array _ _ _, .control _ _, h => by simp [shape] at h
  | _ :: _, .array _ _ _, .group _ _ _, h => by simp [shape] at h
  | p :: rest, .group _ _ ks, .group _ _ ks2, h => by
    simp only [shape, Shp.group.injEq] at h
    have hget := kidsGet_shape ks ks2 h p
    simp only [getControl]
    cases h1 : Kids.get p ks with
    | none =>
      cases h2 : Kids.get p ks2 with
      | none => rfl
      | some c2 => rw [h1, h2] at hget; simp at hget
    | some c1 =>
      cases h2 : Kids.get p ks2 with
      | none => rw [h1, h2] at hget; simp at hget
      | some c2 =>
        rw [h1, h2] at hget
        exact getControl_shape rest c1 c2 (by simpa using hget)
  | p :: rest, .array _ _ es, .array _ _ es2, h => by
    simp only [shape, Shp.array.injEq] at h
    simp only [getControl]
    cases hp : jsParseInt p with
    | none => rfl
    | some i =>
      have hget := elemsAt_shape es es2 h i
      cases h1 : Elems.at? es i with
      | none =>
        cases h2 : Elems.at? es2 i with
        | none => simp [h1, h2]
        | some c2 => rw [h1, h2] at hget; simp at hget
      | some c1 =>
        cases h2 : Elems.at? es2 i with
        | none => rw [h1, h2] at hget; simp at hget
        | some c2 =>
          rw [h1, h2] at hget
          simp only [h1, h2]
          exact getControl_shape rest c1 c2 (by simpa using hget)

/-- Models `Kids.mapAt` with a shape-preserving partial function preserves the shape
list. -/
theorem kidsMapAt_shape : ∀ (ks ks' : Kids) (p : String) (g : Ctrl → Option Ctrl),
    (∀ x y, g x = some y → shape y = shape x) → Kids.mapAt p g ks = some ks' →
    shapeKids ks' = shapeKids ks
  | .nil, _, _, _, _, h => by simp [Kids.mapAt] at h
  | .cons n c r, ks', p, g, hg, h => by
    simp only [Kids.mapAt] at h
    by_cases hp : n = p
    · rw [if_pos hp] at h
      cases hgc : g c with
      | none => rw [hgc] at h; simp at h
      | some c' =>
        rw [hgc] at h
        simp only [Option.map_some', Option.some.injEq] at h
        subst h
        simp [shapeKids, hg c c' hgc]
    · rw [if_neg hp] at h
      cases hr : Kids.mapAt p g r with
      | none => rw [hr] at h; simp at h
      | some r' =>
        rw [hr] at h
        simp only [Option.map_some', Option.some.injEq] at h
        subst h
        simp [shapeKids, kidsMapAt_shape r r' p g hg hr]

/-- Models `Elems.mapAtNat` with a shape-preserving partial function preserves the
shape list. -/
theorem elemsMapAtNat_shape : ∀ (es es' : Elems) (i : Nat) (g : Ctrl → Option Ctrl),
    (∀ x y, g x = some y → shape y = shape x) → Elems.mapAtNat g es i = some es' →
    shapeElems es' = shapeElems es
  | .nil, _, _, _, _, h => by simp [Elems.mapAtNat] at h
  | .cons c r, es', 0, g, hg, h => by
    simp only [Elems.mapAtNat] at h
    cases hgc : g c with
    | none => rw [hgc] at h; simp at h
    | some c' =>
      rw [hgc] at h
      simp only [Option.map_some', Option.some.injEq] at h
      subst h
      simp [shapeElems, hg c c' hgc]
  | .cons c r, es', i + 1, g, hg, h => by
    simp only [Elems.mapAtNat] at h
    cases hr : Elems.mapAtNat g r i with
    | none => rw [hr] at h; simp at h
    | some r' =>
      rw [hr] at h
      simp only [Option.map_some', Option.some.injEq] at h
      subst h
      simp [shapeElems, elemsMapAtNat_shape r r' i g hg hr]

/-- Models `Elems.mapAt` with a shape-preserving partial function preserves the shape
list. -/
theorem elemsMapAt_shape (es es' : Elems) (i : Int) (g : Ctrl → Option Ctrl)
    (hg : ∀ x y, g x = some y → shape y = shape x) (h : Elems.mapAt i g es = some es') :
    shapeElems es' = shapeElems es := by
  simp only [Elems.mapAt] at h
  split_ifs at h <;> exact elemsMapAtNat_shape es es' _ g hg h

/-- Models `applyAtPath` with a shape-preserving target edit preserves the navigation
shape of the whole tree. -/
theorem applyAtPath_shape : ∀ (parts : List String) (f : Ctrl → Ctrl),
    (∀ x, shape (f x) = shape x) → ∀ (c c' : Ctrl), applyAtPath c parts f = some c' →
    shape c' = shape c
  | [], f, hf, c, c', h => by
    simp only [applyAtPath, Option.some.injEq] at h
    subst h
    exact hf c
  | _ :: _, _, _, .control _ _, c', h => by simp [applyAtPath] at h
  | p :: rest, f, hf, .group e t ks, c', h => by
    simp only [applyAtPath] at h
    cases hm : Kids.mapAt p (fun child => applyAtPath child rest f) ks with
    | none => rw [hm] at h; simp at h
    | some ks' =>
      rw [hm] at h
      simp only [Option.map_some', Option.some.injEq] at h
      subst h
      have hsh := kidsMapAt_shape ks ks' p _
        (fun x y hx => applyAtPath_shape rest f hf x y hx) hm
      simp [shape, hsh]
  | p :: rest, f, hf, .array e t es, c', h => by
    simp only [applyAtPath] at h
    cases hp : jsParseInt p with
    | none => rw [hp] at h; simp at h
    | some i =>
      rw [hp] at h
      replace h : (Elems.mapAt i (fun child => applyAtPath child rest f) es).map
          (fun elems' => Ctrl.array e true elems') = some c' := h
      cases hm : Elems.mapAt i (fun child => applyAtPath child rest f) es with
      | none => rw [hm] at h; simp at h
      | some es' =>
        rw [hm] at h
        simp only [Option.map_some', Option.some.injEq] at h
        subst h
        have hsh := elemsMapAt_shape es es' i _
          (fun x y hx => applyAtPath_shape rest f hf x y hx) hm
        simp [shape, hsh]

/-- Models `Kids.mapAt` succeeds exactly when `Kids.get` finds the child and the edit
succeeds on it. -/
theorem kidsMapAt_isSome : ∀ (ks : Kids) (p : String) (g : Ctrl → Option Ctrl),
    (Kids.mapAt p g ks).isSome = ((Kids.get p ks).bind g).isSome
  | .nil, _, _ => rfl
  | .cons n c r, p, g => by
    simp only [Kids.mapAt, Kids.get]
    by_cases hp : n = p
    · simp only [hp, if_true, Option.some_bind]
      cases g c <;> simp
    · simp only [hp, if_false]
      rw [Option.isSome_map']
      exact kidsMapAt_isSome r p g

/-- Same for `Elems.mapAtNat` against `Elems.get?`. -/
theorem elemsMapAtNat_isSome : ∀ (es : Elems) (i : Nat) (g : Ctrl → Option Ctrl),
    (Elems.mapAtNat g es i).isSome = ((Elems.get? es i).bind g).isSome
  | .nil, i, _ => by cases i <;> rfl
  | .cons c r, 0, g => by
    simp only [Elems.mapAtNat, Elems.get?, Option.some_bind]
    cases g c <;> simp
  | .cons c r, i + 1, g => by
    simp only [Elems.mapAtNat, Elems.get?]
    rw [Option.isSome_map']
    exact elemsMapAtNat_isSome r i g

/-- Same for `Elems.mapAt` against `Elems.at?`. -/
theorem elemsMapAt_isSome (es : Elems) (i : Int) (g : Ctrl → Option Ctrl) :
    (Elems.mapAt i g es).isSome = ((Elems.at? es i).bind g).isSome := by
  simp only [Elems.mapAt, Elems.at?]
  split_ifs <;> first | exact elemsMapAtNat_isSome es _ g | rfl

/-- Models `applyAtPath` succeeds exactly where `getControl` resolves. -/
theorem applyAtPath_isSome : ∀ (parts : List String) (f : Ctrl → Ctrl) (c : Ctrl),
    (applyAtPath c parts f).isSome = (getControl c parts).isSome
  | [], _, _ => rfl
  | _ :: _, _, .control _ _ => rfl
  | p :: rest, f, .group _ _ ks => by
    simp only [applyAtPath, getControl]
    rw [Option.isSome_map', kidsMapAt_isSome]
    cases hg : Kids.get p ks with
    | none => simp
    | some child => simp [applyAtPath_isSome rest f child]
  | p :: rest, f, .array _ _ es => by
    simp only [applyAtPath, getControl]
    cases hp : jsParseInt p with
    | none => rfl
    | some i =>
      simp only []
      rw [Option.isSome_map', elemsMapAt_isSome]
      cases ha : Elems.at? es i with
      | none => simp
      | some child => simp [applyAtPath_isSome rest f child]

/-- One application step of the per-field loop preserves the navigation
shape. -/
theorem applyFieldErrors_shape (form : Ctrl) (entry : String × List ValidationError) :
    shape (applyFieldErrors form entry) = shape form := by
  show shape (match applyAtPath form (splitDots (toFormFieldName entry.1))
      (fun c => Ctrl.markTouchedSelf (Ctrl.setErrors c
        (some [("backend", backendVal (entry.2.map (fun e => e.message)))]))) with
    | some form' => form'
    | none => form) = shape form
  cases ha : applyAtPath form (splitDots (toFormFieldName entry.1))
      (fun c => Ctrl.markTouchedSelf (Ctrl.setErrors c
        (some [("backend", backendVal (entry.2.map (fun e => e.message)))]))) with
  | none => rfl
  | some form' =>
    exact applyAtPath_shape _ _
      (fun x => by rw [shape_markTouchedSelf, shape_setErrors]) form form' ha

/-- A field entry whose translated path does not resolve is a no-op for the
per-field loop. -/
theorem applyFieldErrors_dead (form : Ctrl) (entry : String × List ValidationError)
    (h : getControl form (splitDots (toFormFieldName entry.1)) = none) :
    applyFieldErrors form entry = form := by
  have hiso := applyAtPath_isSome (splitDots (toFormFieldName entry.1))
    (fun c => Ctrl.markTouchedSelf (Ctrl.setErrors c
      (some [("backend", backendVal (entry.2.map (fun e => e.message)))]))) form
  rw [h] at hiso
  have hnone : applyAtPath form (splitDots (toFormFieldName entry.1))
      (fun c => Ctrl.markTouchedSelf (Ctrl.setErrors c
        (some [("backend", backendVal (entry.2.map (fun e => e.message)))]))) = none := by
    cases hv : applyAtPath form (splitDots (toFormFieldName entry.1))
        (fun c => Ctrl.markTouchedSelf (Ctrl.setErrors c
          (some [("backend", backendVal (entry.2.map (fun e => e.message)))]))) with
    | none => rfl
    | some v => rw [hv] at hiso; simp at hiso
  show (match applyAtPath form (splitDots (toFormFieldName entry.1))
      (fun c => Ctrl.markTouchedSelf (Ctrl.setErrors c
        (some [("backend", backendVal (entry.2.map (fun e => e.message)))]))) with
    | some form' => form'
    | none => form) = form
  rw [hnone]

/-- The whole per-field loop preserves the navigation shape. -/
theorem foldl_applyFieldErrors_shape : ∀ (gs : List (String × List ValidationError))
    (form : Ctrl), shape (gs.foldl applyFieldErrors form) = shape form
  | [], _ => rfl
  | g :: rest, form => by
    simp only [List.foldl_cons]
    rw [foldl_applyFieldErrors_shape rest, applyFieldErrors_shape]

/-- Entries that fail `q` may be dropped from the per-field loop when every
such entry's translated path is unresolvable (deadness stated against a
reference tree of the same shape, since the loop itself preserves shapes). -/
theorem foldl_filter_dead (form0 : Ctrl) (q : String × List ValidationError → Bool)
    (hq : ∀ g, q g = false → getControl form0 (splitDots (toFormFieldName g.1)) = none) :
    ∀ (gs : List (String × List ValidationError)) (form : Ctrl), shape form = shape form0 →
    (gs.filter q).foldl applyFieldErrors form = gs.foldl applyFieldErrors form
  | [], _, _ => rfl
  | g :: rest, form, hsh => by
    cases hqg : q g with
    | true =>
      simp only [List.filter_cons, hqg, if_pos, List.foldl_cons]
      exact foldl_filter_dead form0 q hq rest (applyFieldErrors form g)
        (by rw [applyFieldErrors_shape]; exact hsh)
    | false =>
      have hdead : getControl form (splitDots (toFormFieldName g.1)) = none := by
        have hmap := getControl_shape (splitDots (toFormFieldName g.1)) form form0 hsh
        rw [hq g hqg] at hmap
        simpa [Option.map_eq_none'] using hmap
      simp only [List.filter_cons, hqg, List.foldl_cons]
      rw [applyFieldErrors_dead form g hdead]
      exact foldl_filter_dead form0 q hq rest form hsh

/-- Pushing under a key other than `f` commutes with dropping the `f` entry. -/
theorem filter_pushEntry_ne (k f : String) (e : ValidationError) (hkf : k ≠ f) :
    ∀ acc : List (String × List ValidationError),
    (pushEntry k e acc).filter (keyNeF f) = pushEntry k e (acc.filter (keyNeF f))
  | [] => by simp [pushEntry, keyNeF, List.filter_cons, hkf]
  | (k', l) :: rest => by
    by_cases hk : k' = k
    · subst hk
      simp [pushEntry, keyNeF, List.filter_cons, hkf]
    · have hstep : pushEntry k e ((k', l) :: rest) = (k', l) :: pushEntry k e rest := by
        simp [pushEntry, hk]
      rw [hstep]
      by_cases hf' : k' = f
      · have h1 : keyNeF f (k', l) = false := by simp [keyNeF, hf']
        simp only [List.filter_cons, h1, Bool.false_eq_true, if_false]
        rw [filter_pushEntry_ne k f e hkf rest]
      · have h1 : keyNeF f (k', l) = true := by simp [keyNeF, hf']
        simp only [List.filter_cons, h1, if_true]
        rw [filter_pushEntry_ne k f e hkf rest]
        have hstep2 : pushEntry k e ((k', l) :: List.filter (keyNeF f) rest)
            = (k', l) :: pushEntry k e (List.filter (keyNeF f) rest) := by
          simp [pushEntry, hk]
        rw [hstep2]

/-- Pushing under the key `f` is invisible after dropping the `f` entry. -/
theorem filter_pushEntry_self (f : String) (e : ValidationError) :
    ∀ acc : List (String × List ValidationError),
    (pushEntry f e acc).filter (keyNeF f) = acc.filter (keyNeF f)
  | [] => by simp [pushEntry, keyNeF, List.filter_cons]
  | (k', l) :: rest => by
    by_cases hk : k' = f
    · subst hk
      simp [pushEntry, keyNeF, List.filter_cons]
    · have hstep : pushEntry f e ((k', l) :: rest) = (k', l) :: pushEntry f e rest := by
        simp [pushEntry, hk]
      rw [hstep]
      have h1 : keyNeF f (k', l) = true := by simp [keyNeF, hk]
      simp only [List.filter_cons, h1, if_true]
      rw [filter_pushEntry_self f e rest]

/-- Grouping commutes with discarding all errors of field `f`: the grouped
entries with key other than `f` are exactly the grouping of the errors whose
field is not `f`. -/
theorem groupFold_filter (f : String) : ∀ (l : List ValidationError)
    (acc : List (String × List ValidationError)),
    (l.foldl (fun acc e => if fieldTruthy e then pushEntry (e.field.getD "") e acc else acc)
        acc).filter (keyNeF f)
      = (l.filter (fun e => !(fieldIsF f e))).foldl
          (fun acc e => if fieldTruthy e then pushEntry (e.field.getD "") e acc else acc)
          (acc.filter (keyNeF f))
  | [], _ => rfl
  | e :: rest, acc => by
    cases ht : fieldTruthy e with
    | false =>
      have hpf : (!(fieldIsF f e)) = true := by simp [fieldIsF, ht]
      simp only [List.foldl_cons, List.filter_cons, hpf, if_true, ht, Bool.false_eq_true,
        if_false]
      exact groupFold_filter f rest acc
    | true =>
      by_cases hk : e.field.getD "" = f
      · have hpf : (!(fieldIsF f e)) = false := by simp [fieldIsF, ht, hk]
        simp only [List.foldl_cons, List.filter_cons, hpf, Bool.false_eq_true, if_false,
          ht, if_true]
        rw [groupFold_filter f rest (pushEntry (e.field.getD "") e acc)]
        rw [hk, filter_pushEntry_self]
      · have hpf : (!(fieldIsF f e)) = true := by simp [fieldIsF, ht, hk]
        simp only [List.foldl_cons, List.filter_cons, hpf, if_true, ht]
        rw [groupFold_filter f rest (pushEntry (e.field.getD "") e acc)]
        rw [filter_pushEntry_ne _ f e hk]

/-- Models `groupErrorsByField` version of the previous lemma. -/
theorem groupErrorsByField_filter (f : String) (l : List ValidationError) :
    (groupErrorsByField l).filter (keyNeF f)
      = groupErrorsByField (l.filter (fun e => !(fieldIsF f e))) := by
  simpa [groupErrorsByField] using groupFold_filter f l []

/-- Erasing an element the filter drops anyway does not change the filtered
list. -/
theorem filter_erase_of_neg {α : Type} [DecidableEq α] (p : α → Bool) (e : α)
    (h : p e = false) : ∀ l : List α, (l.erase e).filter p = l.filter p
  | [] => rfl
  | a :: rest => by
    by_cases ha : a = e
    · subst ha
      rw [List.erase_cons_head]
      simp [List.filter_cons, h]
    · simp only [List.erase_cons, beq_iff_eq, ha, if_false]
      simp [List.filter_cons, filter_erase_of_neg p e h rest]

/-- C7: a validation error whose translated field path does not resolve in the
form tree is silently dropped by `applyToForm`: the call cannot throw or record
a mapping failure (it is a total function into the form type), and its result
is exactly the result of applying the remaining errors with the dead one
erased. -/
theorem C7_unresolvable_error_silently_dropped (form : Ctrl) (errors : List ValidationError)
    (e : ValidationError) (f : String) (_hmem : e ∈ errors) (hf : e.field = some f)
    (hne : f ≠ "") (hdead : getControl form (splitDots (toFormFieldName f)) = none) :
    applyToForm form errors = applyToForm form (errors.erase e) := by
  have hft : fieldTruthy e = true := by simp [fieldTruthy, hf, hne]
  have hpf : fieldIsF f e = true := by simp [fieldIsF, fieldTruthy, hf, hne]
  have hgen : (errors.erase e).filter (fun x => !(fieldTruthy x))
      = errors.filter (fun x => !(fieldTruthy x)) :=
    filter_erase_of_neg _ e (by simp [hft]) errors
  have hdead1 : getControl (clearFormErrors form) (splitDots (toFormFieldName f)) = none := by
    have hmap := getControl_shape (splitDots (toFormFieldName f)) (clearFormErrors form) form
      (shape_clearFormErrors form)
    rw [hdead] at hmap
    simpa [Option.map_eq_none'] using hmap
  have hq : ∀ g, keyNeF f g = false →
      getControl (clearFormErrors form) (splitDots (toFormFieldName g.1)) = none := by
    intro g hg
    have hgf : g.1 = f := by simpa [keyNeF] using hg
    rw [hgf]
    exact hdead1
  have hfold : (groupErrorsByField errors).foldl applyFieldErrors (clearFormErrors form)
      = (groupErrorsByField (errors.erase e)).foldl applyFieldErrors (clearFormErrors form) := by
    rw [← foldl_filter_dead (clearFormErrors form) (keyNeF f) hq (groupErrorsByField errors)
        (clearFormErrors form) rfl,
      ← foldl_filter_dead (clearFormErrors form) (keyNeF f) hq
        (groupErrorsByField (errors.erase e)) (clearFormErrors form) rfl,
      groupErrorsByField_filter, groupErrorsByField_filter,
      filter_erase_of_neg (fun x => !(fieldIsF f x)) e (by simp [hpf]) errors]
  simp only [applyToForm]
  rw [hfold, hgen]

/-- Witness for C7: an error addressed to the unknown field `Missing` on the
menu form is dropped without any other effect. -/
theorem C7_unresolvable_error_silently_dropped_witness :
    applyToForm menuFormEx [{ message := "msg", code := none, field := some "Missing" }]
      = applyToForm menuFormEx
          (([{ message := "msg", code := none, field := some "Missing" }] :
              List ValidationError).erase
            { message := "msg", code := none, field := some "Missing" }) :=
  C7_unresolvable_error_silently_dropped menuFormEx
    [{ message := "msg", code := none, field := some "Missing" }]
    { message := "msg", code := none, field := some "Missing" } "Missing"
    (by simp) rfl (by decide) (by decide)
